import Mathlib

/-!
Shallow embedding of the incremental activity-data synchronizer and stats
engine (sync script of the astro-blog repository).  Numbers are modelled as
rationals (the script only performs +, *, /, comparisons, floor/round on
IEEE doubles whose inputs here are exact), JS `Date` objects are modelled as
an abstract value carrying the epoch milliseconds together with the local
calendar fields the script projects out, and the remote HTTP endpoints are
modelled as an explicit environment of responses.
-/

/-- Model of a JS `Date`: epoch milliseconds plus the calendar projections
(`getFullYear`, `getMonth()+1`, `getDate`) that the script reads. -/
structure JsDate where
  ms : Int
  year : Int
  month : Nat
  day : Nat
deriving DecidableEq

/-- The apostrophe character, written via its code point. -/
def aposChar : Char := Char.ofNat 39

/-- One-character string holding an apostrophe. -/
def aposS : String := String.mk [aposChar]

/-- `pad2` of the source: zero-pad a number below 10 to two characters. -/
def pad2 (n : Nat) : String :=
  if n < 10 then "0" ++ toString n else toString n

/-- JS `Math.round`: half-way cases go toward positive infinity. -/
def jsRound (x : ℚ) : ℤ := ⌊x + 1 / 2⌋

/-- JS `Math.trunc`: drop the fractional part, toward zero. -/
def jsTrunc (x : ℚ) : ℤ := if 0 ≤ x then ⌊x⌋ else ⌈x⌉

/-- `clamp` of the source. -/
def clamp (n mn mx : ℚ) : ℚ := max mn (min mx n)

/-- Digits of a char list interpreted in base 10. -/
def digitsToNat (ds : List Char) : Nat :=
  ds.foldl (fun a c => a * 10 + (c.toNat - 48)) 0

/-- JS `String.prototype.trim`. -/
def jsTrim (s : String) : String :=
  String.mk (((s.toList.dropWhile Char.isWhitespace).reverse.dropWhile
    Char.isWhitespace).reverse)

/-- JS `parseInt(t, 10)`: optional sign, then leading digits; `none` models
`NaN` (no digits found). -/
def parseIntJS (s : String) : Option Int :=
  let cs := s.toList.dropWhile Char.isWhitespace
  let p : Bool × List Char :=
    match cs with
    | c :: rest =>
      if c = '-' then (true, rest)
      else if c = '+' then (false, rest)
      else (false, c :: rest)
    | [] => (false, [])
  let ds := p.2.takeWhile Char.isDigit
  if ds.isEmpty then none
  else some (if p.1 then -(digitsToNat ds : Int) else (digitsToNat ds : Int))

/-- JS `String.prototype.split` on a single separator character. -/
def splitListOn (sep : Char) : List Char → List (List Char)
  | [] => [[]]
  | c :: rest =>
    let r := splitListOn sep rest
    if c = sep then [] :: r
    else
      match r with
      | h :: t => (c :: h) :: t
      | [] => [[c]]

/-- `toFixed`'s digit string for a nonnegative rational (ECMA rounding:
nearest, ties to the larger integer). -/
def jsToFixedNN (x : ℚ) (d : ℕ) : String :=
  let n : ℤ := ⌊x * (10 : ℚ) ^ d + 1 / 2⌋
  let s := toString n.toNat
  if d = 0 then s
  else
    let cs := s.toList
    let cs := if cs.length ≤ d then List.replicate (d + 1 - cs.length) '0' ++ cs else cs
    String.mk (cs.take (cs.length - d)) ++ "." ++ String.mk (cs.drop (cs.length - d))

/-- JS `Number.prototype.toFixed` on exact rationals. -/
def jsToFixed (x : ℚ) (d : ℕ) : String :=
  if x < 0 then "-" ++ jsToFixedNN (-x) d else jsToFixedNN x d

/-- The two trailing-zero-trimming regex replaces of `toFixedTrim`,
specialised to `toFixed` outputs: drop trailing zeros of the fractional
part, and the decimal point when nothing remains behind it. -/
def trimTrailingZeros (s : String) : String :=
  let cs := s.toList
  if cs.contains '.' then
    let r1 := cs.reverse.dropWhile (fun c => c = '0')
    let r2 := match r1 with
      | c :: rest => if c = '.' then rest else r1
      | [] => r1
    String.mk r2.reverse
  else s

/-- `toFixedTrim` of the source. -/
def toFixedTrim (x : ℚ) (d : ℕ) : String := trimTrailingZeros (jsToFixed x d)

/-- `formatDateYmdDot` of the source (`NaN` fields for an invalid date). -/
def formatDateYmdDot (d : Option JsDate) : String :=
  match d with
  | some dd => toString dd.year ++ "." ++ pad2 dd.month ++ "." ++ pad2 dd.day
  | none => "NaN.NaN.NaN"

/-- `formatPaceSecPerKm` of the source. -/
def formatPaceSecPerKm (secPerKm : ℚ) : Option String :=
  if secPerKm ≤ 0 then none
  else
    let total := (jsRound secPerKm).toNat
    some (toString (total / 60) ++ aposS ++ pad2 (total % 60) ++ aposS ++ aposS ++ "/km")

/-- `formatTimeMinTextFromSec` of the source. -/
def formatTimeMinTextFromSec (sec : ℚ) : Option String :=
  if sec ≤ 0 then none
  else
    let total := (jsRound sec).toNat
    some (toString (total / 60) ++ ":" ++ pad2 (total % 60))

/-- `parseBaselineTimeToSec` of the source: "MM:SS", "MM.SS", else whole
minutes; `none` models the JS `null`. -/
def parseBaselineTimeToSec (timeText : Option String) : Option Int :=
  match timeText with
  | none => none
  | some tt =>
    if tt = "" then none
    else
      let t := jsTrim tt
      if t = "" then none
      else if t.toList.contains ':' then
        match (splitListOn ':' t.toList).map (fun p => parseIntJS (String.mk p)) with
        | some m :: some s :: _ => some (m * 60 + s)
        | _ => none
      else if t.toList.contains '.' then
        match (splitListOn '.' t.toList).map (fun p => parseIntJS (String.mk p)) with
        | some m :: some s :: _ => some (m * 60 + s)
        | _ => none
      else (parseIntJS t).map (fun m => m * 60)

/-- Span of leading digits of a char list. -/
def takeDigits (cs : List Char) : List Char × List Char :=
  (cs.takeWhile Char.isDigit, cs.dropWhile Char.isDigit)

/-- Try the regex `(\d+)'(\d+)''` anchored at the head of the list. -/
def matchPaceAt (cs : List Char) : Option (Nat × Nat) :=
  let d1 := cs.takeWhile Char.isDigit
  let r1 := cs.dropWhile Char.isDigit
  if d1.isEmpty then none
  else
    match r1 with
    | c :: r2 =>
      if c = aposChar then
        let d2 := r2.takeWhile Char.isDigit
        let r3 := r2.dropWhile Char.isDigit
        if d2.isEmpty then none
        else
          match r3 with
          | c1 :: c2 :: _ =>
            if c1 = aposChar ∧ c2 = aposChar then some (digitsToNat d1, digitsToNat d2)
            else none
          | _ => none
      else none
    | [] => none

/-- Leftmost match of the regex `(\d+)'(\d+)''`. -/
def findPaceMatch : List Char → Option (Nat × Nat)
  | [] => none
  | c :: rest =>
    match matchPaceAt (c :: rest) with
    | some r => some r
    | none => findPaceMatch rest

/-- `parsePaceToSeconds` of the source: first `M'SS''` group of the text, or
0 when the text is absent, empty or does not match. -/
def parsePaceToSeconds (paceText : Option String) : Nat :=
  match paceText with
  | none => 0
  | some s =>
    if s = "" then 0
    else
      match findPaceMatch s.toList with
      | some ms => ms.1 * 60 + ms.2
      | none => 0

/-- A raw activity object as returned by the remote list/detail endpoints
(`""` id models a missing/falsy identifier). -/
structure RawActivity where
  id : String
  sport_type : Option String
  type' : Option String
  name : Option String
  start_date : Option JsDate
  start_date_local : Option JsDate
  distance : Option ℚ
  moving_time : Option ℚ
  elapsed_time : Option ℚ
  total_elevation_gain : Option ℚ
  calories : Option ℚ
  kilojoules : Option ℚ
  average_speed : Option ℚ
  max_speed : Option ℚ
  average_temp : Option ℚ
  average_watts : Option ℚ
  has_heartrate : Option Bool
  average_heartrate : Option ℚ
  max_heartrate : Option ℚ
  device_name : Option String
  trainer : Option Bool
  commute : Option Bool
  detail_attempted : Option Bool
deriving DecidableEq

/-- The minimized, storage-shaped activity record. -/
structure ActivityRecord where
  id : String
  sport_type : Option String
  name : Option String
  start_date : Option JsDate
  start_date_local : Option JsDate
  distance_m : Option ℚ
  moving_time_s : Option ℚ
  elapsed_time_s : Option ℚ
  total_elevation_gain_m : Option ℚ
  calories_kcal : Option ℚ
  kilojoules_kj : Option ℚ
  average_speed_mps : Option ℚ
  max_speed_mps : Option ℚ
  average_temp_c : Option ℚ
  average_watts : Option ℚ
  has_heartrate : Option Bool
  average_heartrate : Option ℚ
  max_heartrate : Option ℚ
  device_name : Option String
  trainer : Option Bool
  commute : Option Bool
  detail_attempted : Bool
deriving DecidableEq

/-- JS `x || y` on optional strings (skips both absent and empty). -/
def strOr (x y : Option String) : Option String :=
  match x with
  | some s => if s = "" then y else some s
  | none => y

/-- `minimizeActivity` of the source. -/
def minimizeActivity (a : RawActivity) : ActivityRecord :=
  { id := a.id
    sport_type := strOr a.sport_type a.type'
    name := a.name
    start_date := a.start_date
    start_date_local := a.start_date_local
    distance_m := a.distance
    moving_time_s := a.moving_time
    elapsed_time_s := a.elapsed_time
    total_elevation_gain_m := a.total_elevation_gain
    calories_kcal := a.calories
    kilojoules_kj := a.kilojoules
    average_speed_mps := a.average_speed
    max_speed_mps := a.max_speed
    average_temp_c := a.average_temp
    average_watts := a.average_watts
    has_heartrate := a.has_heartrate
    average_heartrate := a.average_heartrate
    max_heartrate := a.max_heartrate
    device_name := a.device_name
    trainer := a.trainer
    commute := a.commute
    detail_attempted := a.detail_attempted.getD false }

/-- Association list modelling the JS `Map` keyed by activity id. -/
abbrev AMap := List (String × ActivityRecord)

/-- JS `Map.prototype.set`: overwrite in place, else append. -/
def mapSet (m : AMap) (k : String) (v : ActivityRecord) : AMap :=
  if m.any (fun p => p.1 = k) then
    m.map (fun p => if p.1 = k then (k, v) else p)
  else m ++ [(k, v)]

/-- `for (const a of cachedActivities) map.set(a.id, a)`. -/
def insertCached (m : AMap) (l : List ActivityRecord) : AMap :=
  l.foldl (fun m a => mapSet m a.id a) m

/-- `for (const a of fresh) map.set(a.id, minimizeActivity(a))`. -/
def insertFresh (m : AMap) (l : List RawActivity) : AMap :=
  l.foldl (fun m a => mapSet m a.id (minimizeActivity a)) m

/-- The id-keyed map after inserting the cache and then the fresh set. -/
def buildMap (cached : List ActivityRecord) (fresh : List RawActivity) : AMap :=
  insertFresh (insertCached [] cached) fresh

/-- Sort key of the merge: UTC start epoch milliseconds, absent dates
falling back to epoch 0 (`new Date(a.start_date || 0).getTime()`). -/
def startMs (a : ActivityRecord) : Int := (a.start_date.map JsDate.ms).getD 0

/-- The merge comparator `(a, b) => db - da` as a total Boolean preorder:
`a` may precede `b` iff `b`'s timestamp is at most `a`'s. -/
def actLe (a b : ActivityRecord) : Bool := decide (startMs b ≤ startMs a)

/-- Stable insertion into a list sorted for `le`. -/
def insStable {α : Type} (le : α → α → Bool) (x : α) : List α → List α
  | [] => [x]
  | y :: ys => if le x y then x :: y :: ys else y :: insStable le x ys

/-- A stable sort; JS `Array.prototype.sort` is specified stable, and
stable sorting by a total preorder has a unique result, so any stable sort
is a faithful model of it. -/
def jsSort {α : Type} (le : α → α → Bool) : List α → List α
  | [] => []
  | x :: xs => insStable le x (jsSort le xs)

/-- The cache merge of `main`: id-keyed override map, values filtered to
truthy ids, sorted by UTC start timestamp descending. -/
def mergeActivities (cached : List ActivityRecord) (fresh : List RawActivity) :
    List ActivityRecord :=
  jsSort actLe (((buildMap cached fresh).map Prod.snd).filter (fun a => a.id ≠ ""))

/-- Ids of the freshly fetched set (`new Set(fresh.map(a => a?.id).filter(Boolean))`). -/
def freshIdsOf (fresh : List RawActivity) : List String :=
  (fresh.map RawActivity.id).filter (fun i => i ≠ "")

/-- Lifetime totals block (`all_run_totals` / `all_ride_totals`). -/
structure TotalsBlock where
  distance : Option ℚ
  moving_time : Option ℚ
  count : Option ℚ
deriving DecidableEq

/-- Athlete lifetime stats document. -/
structure AthleteStats where
  all_run_totals : Option TotalsBlock
  all_ride_totals : Option TotalsBlock
deriving DecidableEq

/-- Baseline farthest-run personal record. -/
structure BaselinePRFarthest where
  distanceKm : Option ℚ
  paceText : Option String
  dateText : Option String
deriving DecidableEq

/-- Baseline best-time personal record (5K / 10K). -/
structure BaselinePRTime where
  timeText : Option String
  unit : Option String
  paceText : Option String
deriving DecidableEq

/-- Baseline named personal records. -/
structure BaselineBest where
  farthest : Option BaselinePRFarthest
  best5k : Option BaselinePRTime
  best10k : Option BaselinePRTime
deriving DecidableEq

/-- Baseline running block. -/
structure BaselineRunning where
  totalDistanceKm : Option ℚ
  avgPaceText : Option String
  sinceLabel : Option String
  best : Option BaselineBest
deriving DecidableEq

/-- The curated baseline document (only the `running` block is read). -/
structure Baseline where
  running : Option BaselineRunning
deriving DecidableEq

/-- `asSportType` of the source, on minimized records (which carry no
separate `type` field): coerce an absent sport string to `""`. -/
def asSportType (a : ActivityRecord) : String := a.sport_type.getD ""

/-- `isRun` of the source. -/
def isRun (a : ActivityRecord) : Bool :=
  let t := asSportType a
  t = "Run" ∨ t = "TrailRun" ∨ t = "VirtualRun" ∨ t = "Treadmill"

/-- `isRide` of the source. -/
def isRide (a : ActivityRecord) : Bool :=
  let t := asSportType a
  t = "Ride" ∨ t = "VirtualRide" ∨ t = "EBikeRide" ∨ t = "GravelRide"

/-- `Number(v) || 0` on an optional numeric field. -/
def qOf (x : Option ℚ) : ℚ := x.getD 0

/-- The `sum` helper of `computeSportsStats`. -/
def sumBy (l : List ActivityRecord) (pick : ActivityRecord → Option ℚ) : ℚ :=
  l.foldl (fun acc x => acc + qOf (pick x)) 0

/-- Local date with UTC fallback: `a.start_date_local || a.start_date`. -/
def dateLocalOr (a : ActivityRecord) : Option JsDate :=
  match a.start_date_local with
  | some d => some d
  | none => a.start_date

/-- Running records of the merged set. -/
def runsOf (activities : List ActivityRecord) : List ActivityRecord :=
  activities.filter isRun

/-- Cycling records of the merged set. -/
def ridesOf (activities : List ActivityRecord) : List ActivityRecord :=
  activities.filter isRide

/-- `athleteStats?.all_run_totals ?? null`. -/
def statsAllRunOf (athleteStats : Option AthleteStats) : Option TotalsBlock :=
  athleteStats.bind AthleteStats.all_run_totals

/-- `athleteStats?.all_ride_totals ?? null`. -/
def statsAllRideOf (athleteStats : Option AthleteStats) : Option TotalsBlock :=
  athleteStats.bind AthleteStats.all_ride_totals

/-- `baseline.running?.totalDistanceKm || 0`. -/
def baselineRunningDistKm (baseline : Baseline) : ℚ :=
  (baseline.running.bind BaselineRunning.totalDistanceKm).getD 0

/-- `parsePaceToSeconds(baseline.running?.avgPaceText)`. -/
def baselinePaceSecOf (baseline : Baseline) : Nat :=
  parsePaceToSeconds (baseline.running.bind BaselineRunning.avgPaceText)

/-- Baseline running-time contribution in hours. -/
def baselineTimeHOf (baseline : Baseline) : ℚ :=
  baselineRunningDistKm baseline * (baselinePaceSecOf baseline : ℚ) / 3600

/-- Running total-distance figure (km). -/
def runDistanceKmOf (baseline : Baseline) (activities : List ActivityRecord)
    (athleteStats : Option AthleteStats) : ℚ :=
  baselineRunningDistKm baseline +
    match (statsAllRunOf athleteStats).bind TotalsBlock.distance with
    | some d => d / 1000
    | none => sumBy (runsOf activities) ActivityRecord.distance_m / 1000

/-- Running total-time figure (hours). -/
def runTimeHOf (baseline : Baseline) (activities : List ActivityRecord)
    (athleteStats : Option AthleteStats) : ℚ :=
  baselineTimeHOf baseline +
    match (statsAllRunOf athleteStats).bind TotalsBlock.moving_time with
    | some t => t / 3600
    | none => sumBy (runsOf activities) ActivityRecord.moving_time_s / 3600

/-- Cycling total-distance figure (km): lifetime totals else local sum. -/
def rideDistanceKmOf (activities : List ActivityRecord)
    (athleteStats : Option AthleteStats) : ℚ :=
  match (statsAllRideOf athleteStats).bind TotalsBlock.distance with
  | some d => d / 1000
  | none => sumBy (ridesOf activities) ActivityRecord.distance_m / 1000

/-- Cycling total-time figure (hours). -/
def rideTimeHOf (activities : List ActivityRecord)
    (athleteStats : Option AthleteStats) : ℚ :=
  match (statsAllRideOf athleteStats).bind TotalsBlock.moving_time with
  | some t => t / 3600
  | none => sumBy (ridesOf activities) ActivityRecord.moving_time_s / 3600

/-- Cycling total count. -/
def rideCountOf (activities : List ActivityRecord)
    (athleteStats : Option AthleteStats) : ℚ :=
  match (statsAllRideOf athleteStats).bind TotalsBlock.count with
  | some c => c
  | none => ((ridesOf activities).length : ℚ)

/-- Cycling calories: per record, calories first, else kJ × 0.239006, else 0. -/
def rideCaloriesOf (activities : List ActivityRecord) : ℚ :=
  (ridesOf activities).foldl
    (fun acc a =>
      acc +
        match a.calories_kcal with
        | some c => c
        | none =>
          match a.kilojoules_kj with
          | some k => k * (239006 / 1000000 : ℚ)
          | none => 0)
    0

/-- The farthest-ride reduce of the source. -/
def bestRideOf (rides : List ActivityRecord) : Option (ActivityRecord × ℚ) :=
  rides.foldl
    (fun best a =>
      let km := qOf a.distance_m / 1000
      if km > (match best with | some b => b.2 | none => 0) then some (a, km) else best)
    none

/-- `bestRide?.km ?? 0`. -/
def bestRideKmOf (rides : List ActivityRecord) : ℚ :=
  match bestRideOf rides with
  | some b => b.2
  | none => 0

/-- Farthest-ride subtext (`~X km/h @date`, or `@date`, or null). -/
def bestRideSubtextOf (rides : List ActivityRecord) : Option String :=
  match bestRideOf rides with
  | some b =>
    let date := formatDateYmdDot (dateLocalOr b.1)
    match b.1.average_speed_mps with
    | some v =>
      if v = 0 then some ("@" ++ date)
      else some ("~" ++ toFixedTrim (v * (36 / 10 : ℚ)) 1 ++ " km/h @" ++ date)
    | none => some ("@" ++ date)
  | none => none

/-- `baseline.running?.best?.farthest`. -/
def baselineFarthestOf (baseline : Baseline) : Option BaselinePRFarthest :=
  (baseline.running.bind BaselineRunning.best).bind BaselineBest.farthest

/-- `Number(baselineFarthest?.distanceKm || 0)`. -/
def baselineFarthestKm (baseline : Baseline) : ℚ :=
  ((baselineFarthestOf baseline).bind BaselinePRFarthest.distanceKm).getD 0

/-- The farthest-run reduce of the source. -/
def bestRunOf (runs : List ActivityRecord) : Option (ActivityRecord × ℚ) :=
  runs.foldl
    (fun best a =>
      let km := qOf a.distance_m / 1000
      if km > (match best with | some b => b.2 | none => 0) then some (a, km) else best)
    none

/-- `bestRun?.km ?? 0`. -/
def bestRunKmOf (activities : List ActivityRecord) : ℚ :=
  match bestRunOf (runsOf activities) with
  | some b => b.2
  | none => 0

/-- JS template interpolation of a possibly-absent string. -/
def tmplStr (x : Option String) : String := x.getD "undefined"

/-- The baseline farthest-run subtext (`pace @date`), when present. -/
def baselineFarthestSubtext (baseline : Baseline) : Option String :=
  (baselineFarthestOf baseline).map
    (fun bf => tmplStr bf.paceText ++ " @" ++ tmplStr bf.dateText)

/-- Farthest-run card value: local maximum only on strict improvement. -/
def farthestValueOf (baseline : Baseline) (activities : List ActivityRecord) : String :=
  let bKm := baselineFarthestKm baseline
  match bestRunOf (runsOf activities) with
  | some b =>
    if b.2 > bKm then toFixedTrim b.2 (if b.2 ≥ 10 then 1 else 2)
    else toFixedTrim bKm 1
  | none => toFixedTrim bKm 1

/-- Farthest-run card subtext: local pace/date only on strict improvement. -/
def farthestSubtextOf (baseline : Baseline) (activities : List ActivityRecord) :
    Option String :=
  let bKm := baselineFarthestKm baseline
  match bestRunOf (runsOf activities) with
  | some b =>
    if b.2 > bKm then
      let secPerKm := qOf b.1.moving_time_s / clamp b.2 (1 / 1000) ((10 : ℚ) ^ 9)
      let date := formatDateYmdDot (dateLocalOr b.1)
      match formatPaceSecPerKm secPerKm with
      | some p => some (p ++ " @" ++ date)
      | none => some ("@" ++ date)
    else baselineFarthestSubtext baseline
  | none => baselineFarthestSubtext baseline

/-- A best-5K/10K candidate as built by `findBestForDistance`. -/
structure BestCand where
  a : ActivityRecord
  km : ℚ
  timeSec : ℚ
  paceSecPerKm : ℚ
deriving DecidableEq

/-- One step of the `findBestForDistance` loop (the source's `km` and `t`
locals written out in full). -/
def bfdStep (targetKm tolKm : ℚ) (best : Option BestCand) (a : ActivityRecord) :
    Option BestCand :=
  if |qOf a.distance_m / 1000 - targetKm| > tolKm then best
  else if qOf a.moving_time_s ≤ 0 then best
  else
    match best with
    | none =>
      some ⟨a, qOf a.distance_m / 1000, qOf a.moving_time_s,
        qOf a.moving_time_s / clamp (qOf a.distance_m / 1000) (1 / 1000) ((10 : ℚ) ^ 9)⟩
    | some b =>
      if qOf a.moving_time_s < b.timeSec then
        some ⟨a, qOf a.distance_m / 1000, qOf a.moving_time_s,
          qOf a.moving_time_s / clamp (qOf a.distance_m / 1000) (1 / 1000) ((10 : ℚ) ^ 9)⟩
      else some b

/-- `findBestForDistance` of the source. -/
def findBestForDistance (runs : List ActivityRecord) (targetKm tolKm : ℚ) :
    Option BestCand :=
  runs.foldl (bfdStep targetKm tolKm) none

/-- `baseline.running?.best?.best5k`. -/
def baseline5kOf (baseline : Baseline) : Option BaselinePRTime :=
  (baseline.running.bind BaselineRunning.best).bind BaselineBest.best5k

/-- `baseline.running?.best?.best10k`. -/
def baseline10kOf (baseline : Baseline) : Option BaselinePRTime :=
  (baseline.running.bind BaselineRunning.best).bind BaselineBest.best10k

/-- Parsed baseline 5K time in seconds. -/
def baseline5kSecOf (baseline : Baseline) : Option Int :=
  parseBaselineTimeToSec ((baseline5kOf baseline).bind BaselinePRTime.timeText)

/-- Parsed baseline 10K time in seconds. -/
def baseline10kSecOf (baseline : Baseline) : Option Int :=
  parseBaselineTimeToSec ((baseline10kOf baseline).bind BaselinePRTime.timeText)

/-- The chosen candidate: only when a candidate exists, the baseline time
parsed, and the candidate is strictly faster. -/
def chosenOf (cand : Option BestCand) (baseSec : Option Int) : Option BestCand :=
  match cand, baseSec with
  | some c, some s => if c.timeSec < (s : ℚ) then some c else none
  | _, _ => none

/-- Best-5K value: formatted candidate time, else the baseline text. -/
def best5kValueOf (baseline : Baseline) (activities : List ActivityRecord) :
    Option String :=
  match chosenOf (findBestForDistance (runsOf activities) 5 (2 / 25))
      (baseline5kSecOf baseline) with
  | some c => formatTimeMinTextFromSec c.timeSec
  | none => some (((baseline5kOf baseline).bind BaselinePRTime.timeText).getD "")

/-- Best-10K value: formatted candidate time, else the baseline text. -/
def best10kValueOf (baseline : Baseline) (activities : List ActivityRecord) :
    Option String :=
  match chosenOf (findBestForDistance (runsOf activities) 10 (3 / 25))
      (baseline10kSecOf baseline) with
  | some c => formatTimeMinTextFromSec c.timeSec
  | none => some (((baseline10kOf baseline).bind BaselinePRTime.timeText).getD "")

/-- Best-5K subtext: candidate pace/date, else the baseline pace text. -/
def best5kSubOf (baseline : Baseline) (activities : List ActivityRecord) : String :=
  match chosenOf (findBestForDistance (runsOf activities) 5 (2 / 25))
      (baseline5kSecOf baseline) with
  | some c =>
    (formatPaceSecPerKm c.paceSecPerKm).getD "null" ++ " @" ++
      formatDateYmdDot (dateLocalOr c.a)
  | none => ((baseline5kOf baseline).bind BaselinePRTime.paceText).getD ""

/-- Best-10K subtext: candidate pace/date, else the baseline pace text. -/
def best10kSubOf (baseline : Baseline) (activities : List ActivityRecord) : String :=
  match chosenOf (findBestForDistance (runsOf activities) 10 (3 / 25))
      (baseline10kSecOf baseline) with
  | some c =>
    (formatPaceSecPerKm c.paceSecPerKm).getD "null" ++ " @" ++
      formatDateYmdDot (dateLocalOr c.a)
  | none => ((baseline10kOf baseline).bind BaselinePRTime.paceText).getD ""

/-- `if (rideCount > 0) rideDistanceKm / rideCount else 0`. -/
def cyclingAvgKmPerRideOf (activities : List ActivityRecord)
    (athleteStats : Option AthleteStats) : ℚ :=
  let c := rideCountOf activities athleteStats
  if c > 0 then rideDistanceKmOf activities athleteStats / c else 0

/-- Lexicographic strict order on char lists (JS string `<` on ASCII keys). -/
def lexLtCh : List Char → List Char → Bool
  | [], [] => false
  | [], _ :: _ => true
  | _ :: _, [] => false
  | a :: as, b :: bs =>
    if a.toNat < b.toNat then true
    else if b.toNat < a.toNat then false
    else lexLtCh as bs

/-- JS `<` on strings. -/
def strLt (a b : String) : Bool := lexLtCh a.toList b.toList

/-- `monthKey` of the source: `YYYY-MM` from the local date. -/
def monthKey (d : Option JsDate) : String :=
  match d with
  | some dd => toString dd.year ++ "-" ++ pad2 dd.month
  | none => "NaN-NaN"

/-- Year key: `getFullYear().toString()` of the local date. -/
def yearKey (d : Option JsDate) : String :=
  match d with
  | some dd => toString dd.year
  | none => "NaN"

/-- Monthly accumulator entry of `groupMonthly`. -/
structure MonthAgg where
  month : String
  distanceKm : ℚ
  count : Nat
  movingTimeHours : ℚ
deriving DecidableEq

/-- Map upsert of `groupMonthly` (insertion order preserved on update). -/
def upsertMonth (m : List MonthAgg) (key : String) (dist t : ℚ) : List MonthAgg :=
  if m.any (fun x => x.month = key) then
    m.map (fun x =>
      if x.month = key then
        { x with
          distanceKm := x.distanceKm + dist
          movingTimeHours := x.movingTimeHours + t
          count := x.count + 1 }
      else x)
  else m ++ [⟨key, dist, 1, t⟩]

/-- Formatted monthly rollup entry. -/
structure MonthEntry where
  month : String
  distanceKm : String
  count : Nat
  movingTimeHours : String
deriving DecidableEq

/-- `groupMonthly` of the source. -/
def groupMonthly (arr : List ActivityRecord) : List MonthEntry :=
  let m := arr.foldl
    (fun m a =>
      upsertMonth m (monthKey (dateLocalOr a)) (qOf a.distance_m / 1000)
        (qOf a.moving_time_s / 3600))
    []
  (jsSort (fun a b => ¬ strLt a.month b.month) m).map
    (fun x =>
      { month := x.month
        distanceKm := toFixedTrim x.distanceKm 2
        count := x.count
        movingTimeHours := toFixedTrim x.movingTimeHours 2 })

/-- Yearly accumulator entry of `computeYearlyStats`. -/
structure YearAgg where
  year : String
  distance : ℚ
  time : ℚ
  count : Nat
deriving DecidableEq

/-- Bucket update of `computeYearlyStats` for one activity. -/
def upsertYearAct (ys : List YearAgg) (key : String) (dist t : ℚ) : List YearAgg :=
  if ys.any (fun x => x.year = key) then
    ys.map (fun x =>
      if x.year = key then
        { x with distance := x.distance + dist, time := x.time + t, count := x.count + 1 }
      else x)
  else ys ++ [⟨key, dist, t, 1⟩]

/-- Baseline fold of `computeYearlyStats`: add distance/time to the
hardcoded "2025" bucket, leaving the count untouched. -/
def upsertYearBaseline (ys : List YearAgg) (dist t : ℚ) : List YearAgg :=
  if ys.any (fun x => x.year = "2025") then
    ys.map (fun x =>
      if x.year = "2025" then { x with distance := x.distance + dist, time := x.time + t }
      else x)
  else ys ++ [⟨"2025", dist, t, 0⟩]

/-- Formatted yearly rollup entry. -/
structure YearEntry where
  distance : String
  time : String
  count : Nat
deriving DecidableEq

/-- `computeYearlyStats` of the source; the output object is rendered as an
association list enumerated in the `forEach` insertion order (year keys
sorted ascending, then reversed). -/
def computeYearlyStats (activities : List ActivityRecord)
    (baselineData : Option BaselineRunning) : List (String × YearEntry) :=
  let ys := activities.foldl
    (fun ys a =>
      upsertYearAct ys (yearKey (dateLocalOr a)) (qOf a.distance_m / 1000)
        (qOf a.moving_time_s / 3600))
    []
  let ys :=
    match baselineData with
    | some bd =>
      let bDist := bd.totalDistanceKm.getD 0
      let bPace := parsePaceToSeconds bd.avgPaceText
      upsertYearBaseline ys bDist (bDist * (bPace : ℚ) / 3600)
    | none => ys
  (jsSort (fun a b => ¬ strLt a.year b.year) ys).map
    (fun x => (x.year, ⟨toFixedTrim x.distance 2, toFixedTrim x.time 1, x.count⟩))

/-- A labeled dashboard card. -/
structure Card where
  label : String
  value : String
  unit : String
  subtext : Option String
deriving DecidableEq

/-- JS `x || d` on an optional string with a non-empty default. -/
def strOrD (x : Option String) (d : String) : String :=
  match x with
  | some s => if s = "" then d else s
  | none => d

/-- JS `x || null` on an optional string. -/
def strOrNull (x : Option String) : Option String :=
  match x with
  | some s => if s = "" then none else some s
  | none => none

/-- Running cards of the stats document. -/
structure RunningCards where
  totalDistance : Card
  totalTime : Card
  halfMarathon : Card
  fullMarathon : Card
deriving DecidableEq

/-- Cycling cards of the stats document. -/
structure CyclingCards where
  totalDistance : Card
  totalTime : Card
  totalCount : Card
  farthest : Card
deriving DecidableEq

/-- Running section of the stats document. -/
structure SportSectionRun where
  years : List (String × YearEntry)
  cards : RunningCards
  monthly : List MonthEntry
deriving DecidableEq

/-- Cycling section of the stats document. -/
structure SportSectionRide where
  years : List (String × YearEntry)
  cards : CyclingCards
  monthly : List MonthEntry
deriving DecidableEq

/-- The derived stats document. -/
structure StatsDoc where
  generatedAt : String
  running : SportSectionRun
  cycling : SportSectionRide
deriving DecidableEq

/-- `computeSportsStats` of the source (wall-clock stamp passed in;
the farthest-run and best-5K/10K values are computed by the engine —
`farthestValueOf`, `best5kValueOf`, … above — but not emitted in the
returned document, exactly as in the source). -/
def computeSportsStats (baseline : Baseline) (activities : List ActivityRecord)
    (athleteStats : Option AthleteStats) (nowIso : String) : StatsDoc :=
  let runs := runsOf activities
  let rides := ridesOf activities
  let rideCount := rideCountOf activities athleteStats
  { generatedAt := nowIso
    running :=
      { years := computeYearlyStats runs (baseline.running)
        cards :=
          { totalDistance :=
              { label := "总跑量(" ++ strOrD (baseline.running.bind BaselineRunning.sinceLabel) "累计" ++ ")"
                value := toFixedTrim (runDistanceKmOf baseline activities athleteStats) 2
                unit := "km"
                subtext := strOrNull (baseline.running.bind BaselineRunning.avgPaceText) }
            totalTime :=
              { label := "总时长"
                value := toFixedTrim (runTimeHOf baseline activities athleteStats) 1
                unit := "h"
                subtext := some "在路上的时间" }
            halfMarathon :=
              { label := "半马 PB", value := "--", unit := "", subtext := some "暂无记录" }
            fullMarathon :=
              { label := "全马 PB", value := "--", unit := "", subtext := some "暂无记录" } }
        monthly := groupMonthly runs }
    cycling :=
      { years := computeYearlyStats rides none
        cards :=
          { totalDistance :=
              { label := "总里程"
                value := toFixedTrim (rideDistanceKmOf activities athleteStats) 2
                unit := "km"
                subtext := some "历史累计" }
            totalTime :=
              { label := "总时长"
                value := toFixedTrim (rideTimeHOf activities athleteStats) 2
                unit := "h"
                subtext := some "在路上的时间" }
            totalCount :=
              { label := "累计次数"
                value := toString (jsTrunc rideCount)
                unit := "次"
                subtext :=
                  if rideCount > 0 then
                    some ("~" ++ toFixedTrim (cyclingAvgKmPerRideOf activities athleteStats) 1 ++ " km/次")
                  else none }
            farthest :=
              { label := "最长骑行距离"
                value := toFixedTrim (bestRideKmOf rides) (if bestRideKmOf rides ≥ 100 then 1 else 2)
                unit := "km"
                subtext := bestRideSubtextOf rides } }
        monthly := groupMonthly rides } }

/-- Persisted sync state. -/
structure SyncState where
  lastSyncEpoch : Int
  updatedAt : Option String
deriving DecidableEq

/-- Token-exchange response body (`access_token`, `athlete?.id ?? null`). -/
structure TokenJson where
  access_token : Option String
  athlete_id : Option Int
deriving DecidableEq

/-- Body of one activity-list page: a sequence, or something else. -/
inductive PageBody where
  | arr (items : List RawActivity)
  | notSeq
deriving DecidableEq

/-- The run environment: process env inputs, persisted state as read, and
the remote endpoints' responses (an `Except.error` models a thrown
`fetch`-level failure or non-success HTTP status). -/
structure Env where
  envClientId : Option String
  envClientSecret : Option String
  envRefreshToken : Option String
  envInitialAfterEpoch : Option Int
  envDetailMax : Option Int
  baseline : Baseline
  state0 : SyncState
  cached : List ActivityRecord
  tokenResp : Except String TokenJson
  statsResp : Int → Except String AthleteStats
  pageResp : Nat → Int → Except String PageBody
  detailResp : String → Except String RawActivity
  nowIso : String

/-- `mustGetEnv`: a missing or empty env var throws. -/
def mustGetEnv (v : Option String) (nm : String) : Except String String :=
  match v with
  | some s => if s = "" then Except.error ("Missing env var: " ++ nm) else Except.ok s
  | none => Except.error ("Missing env var: " ++ nm)

/-- `stravaRefreshAccessToken` of the source. -/
def stravaRefreshAccessToken (env : Env) : Except String (String × Option Int) := do
  let _ ← mustGetEnv env.envClientId "STRAVA_CLIENT_ID"
  let _ ← mustGetEnv env.envClientSecret "STRAVA_CLIENT_SECRET"
  let _ ← mustGetEnv env.envRefreshToken "STRAVA_REFRESH_TOKEN"
  match env.tokenResp with
  | Except.error e => Except.error e
  | Except.ok j =>
    match j.access_token with
    | some t =>
      if t = "" then Except.error "Strava token refresh response missing access_token"
      else Except.ok (t, j.athlete_id)
    | none => Except.error "Strava token refresh response missing access_token"

/-- `fetchAthleteStats` of the source: a falsy athlete id short-circuits to
`null` without any remote call. -/
def fetchAthleteStats (env : Env) (athleteId : Option Int) :
    Except String (Option AthleteStats) :=
  match athleteId with
  | none => Except.ok none
  | some i =>
    if i = 0 then Except.ok none
    else (env.statsResp i).map some

/-- The paginated activity-list loop (`per_page` 200, `maxPages` 20);
first argument is the remaining page budget. -/
def fetchActivitiesGo (env : Env) (afterEpoch : Int) :
    Nat → Nat → Except String (List RawActivity)
  | 0, _ => Except.ok []
  | Nat.succ remaining, page =>
    match env.pageResp page afterEpoch with
    | Except.error e => Except.error e
    | Except.ok PageBody.notSeq => Except.error "Strava activities response is not an array"
    | Except.ok (PageBody.arr items) =>
      if items.length < 200 then Except.ok items
      else (fetchActivitiesGo env afterEpoch remaining (page + 1)).map (items ++ ·)

/-- `fetchActivities` of the source (the `after` query parameter is only
set when positive, modelled by the effective epoch passed through). -/
def fetchActivities (env : Env) (afterEpoch : Int) : Except String (List RawActivity) :=
  fetchActivitiesGo env (if afterEpoch > 0 then afterEpoch else 0) 20 1

/-- The detail-backfill loop of `main` over the merged list, carrying the
`detailFetched` counter; returns the updated records, the final counter and
the list of activity ids for which a detail request was issued. -/
def backfillGo (env : Env) (freshIds : List String) (detailMax : Int) :
    List ActivityRecord → Nat → List ActivityRecord × Nat × List String
  | [], fetched => ([], fetched, [])
  | a :: rest, fetched =>
    if detailMax ≤ (fetched : Int) then (a :: rest, fetched, [])
    else if a.id = "" then
      let r := backfillGo env freshIds detailMax rest fetched
      (a :: r.1, r.2)
    else if a.id ∉ freshIds then
      let r := backfillGo env freshIds detailMax rest fetched
      (a :: r.1, r.2)
    else if a.detail_attempted then
      let r := backfillGo env freshIds detailMax rest fetched
      (a :: r.1, r.2)
    else if a.calories_kcal.isSome ∨ a.kilojoules_kj.isSome then
      let r := backfillGo env freshIds detailMax rest fetched
      ({ a with detail_attempted := true } :: r.1, r.2)
    else
      match env.detailResp a.id with
      | Except.ok d =>
        let r := backfillGo env freshIds detailMax rest (fetched + 1)
        ({ minimizeActivity d with detail_attempted := true } :: r.1, r.2.1, a.id :: r.2.2)
      | Except.error _ =>
        let r := backfillGo env freshIds detailMax rest fetched
        ({ a with detail_attempted := true } :: r.1, r.2.1, a.id :: r.2.2)

/-- The backfill pass: skipped entirely unless the configured maximum is
positive. -/
def runBackfill (env : Env) (freshIds : List String) (detailMax : Int)
    (merged : List ActivityRecord) : List ActivityRecord × Nat × List String :=
  if detailMax > 0 then backfillGo env freshIds detailMax merged 0 else (merged, 0, [])

/-- The next-watermark computation of `main`: newest record's floored UTC
epoch seconds minus 60 (clamped at 0), else the input watermark. -/
def computeNextWatermark (merged : List ActivityRecord) (afterEpochFromState : Int) : Int :=
  let newestEpoch : Int :=
    match merged.head? with
    | some a =>
      match a.start_date with
      | some d => Int.fdiv d.ms 1000
      | none => 0
    | none => 0
  if newestEpoch > 0 then max 0 (newestEpoch - 60) else afterEpochFromState

/-- `Number(state.lastSyncEpoch) || 0`. -/
def afterEpochFromStateOf (env : Env) : Int := env.state0.lastSyncEpoch

/-- The run's effective lower-bound watermark. -/
def afterEpochOf (env : Env) : Int :=
  if afterEpochFromStateOf env > 0 then afterEpochFromStateOf env
  else (env.envInitialAfterEpoch.getD 0)

/-- `Number(process.env.STRAVA_DETAIL_MAX || 30)`. -/
def detailMaxOf (env : Env) : Int := env.envDetailMax.getD 30

/-- Outcome of a successful run: the three documents persisted at the end,
plus the run counters that are logged. -/
structure RunOutput where
  cacheOut : List ActivityRecord
  stateOut : SyncState
  statsOut : StatsDoc
  detailFetched : Nat
  detailRequests : List String
deriving DecidableEq

/-- `main` of the source, up to the final persistence and log: each awaited
fetch rethrows its error, aborting before any output is produced. -/
def runMain (env : Env) : Except String RunOutput :=
  match stravaRefreshAccessToken env with
  | Except.error e => Except.error e
  | Except.ok ta =>
    match fetchAthleteStats env ta.2 with
    | Except.error e => Except.error e
    | Except.ok athleteStats =>
      match fetchActivities env (afterEpochOf env) with
      | Except.error e => Except.error e
      | Except.ok fresh =>
        let freshIds := freshIdsOf fresh
        let merged := mergeActivities env.cached fresh
        let bf := runBackfill env freshIds (detailMaxOf env) merged
        let nextAfterEpoch := computeNextWatermark bf.1 (afterEpochFromStateOf env)
        let stats := computeSportsStats env.baseline bf.1 athleteStats env.nowIso
        Except.ok
          { cacheOut := bf.1
            stateOut := { lastSyncEpoch := nextAfterEpoch, updatedAt := some env.nowIso }
            statsOut := stats
            detailFetched := bf.2.1
            detailRequests := bf.2.2 }

/-- One persisted write. -/
inductive WriteOp where
  | activities (recs : List ActivityRecord)
  | syncState (st : SyncState)
  | stats (doc : StatsDoc)
deriving DecidableEq

/-- The writes a run performs: the three documents on success, nothing when
the run aborts (all writes sit after every fallible fetch in `main`). -/
def writeOpsOf (env : Env) : List WriteOp :=
  match runMain env with
  | Except.ok r => [WriteOp.activities r.cacheOut, WriteOp.syncState r.stateOut, WriteOp.stats r.statsOut]
  | Except.error _ => []

/-- Process exit status (`main().catch` wrapper). -/
def exitCodeOf (env : Env) : Nat :=
  match runMain env with
  | Except.ok _ => 0
  | Except.error _ => 1

/-- What `console.error` receives, if anything. -/
def stderrOf (env : Env) : Option String :=
  match runMain env with
  | Except.ok _ => none
  | Except.error e => some e

/-- The first fatal step's error, characterised from the environment:
credential exchange, then lifetime totals, then the activity list. -/
def fatalReason (env : Env) : Option String :=
  match stravaRefreshAccessToken env with
  | Except.error e => some e
  | Except.ok ta =>
    match fetchAthleteStats env ta.2 with
    | Except.error e => some e
    | Except.ok _ =>
      match fetchActivities env (afterEpochOf env) with
      | Except.error e => some e
      | Except.ok _ => none

/-! ### Lemmas about the stable sort -/

theorem insStable_perm {α : Type} (le : α → α → Bool) (x : α) (l : List α) :
    (insStable le x l).Perm (x :: l) := by
  induction l with
  | nil => simp [insStable]
  | cons y ys ih =>
    by_cases h : le x y = true
    · simp [insStable, h]
    · simp only [insStable, if_neg h]
      exact (ih.cons y).trans (List.Perm.swap x y ys)

theorem jsSort_perm {α : Type} (le : α → α → Bool) (l : List α) :
    (jsSort le l).Perm l := by
  induction l with
  | nil => simp [jsSort]
  | cons x xs ih =>
    simp only [jsSort]
    exact (insStable_perm le x (jsSort le xs)).trans (ih.cons x)

theorem mem_insStable {α : Type} (le : α → α → Bool) (x : α) (l : List α) (z : α) :
    z ∈ insStable le x l ↔ z = x ∨ z ∈ l := by
  have := (insStable_perm le x l).mem_iff (a := z)
  simpa using this

theorem insStable_pairwise {α : Type} (le : α → α → Bool)
    (hTot : ∀ a b, le a b = true ∨ le b a = true)
    (hTr : ∀ a b c, le a b = true → le b c = true → le a c = true)
    (x : α) (l : List α) (h : l.Pairwise (fun a b => le a b = true)) :
    (insStable le x l).Pairwise (fun a b => le a b = true) := by
  induction l with
  | nil => simp [insStable]
  | cons y ys ih =>
    simp only [insStable]
    by_cases hxy : le x y = true
    · simp only [if_pos hxy]
      refine List.Pairwise.cons ?_ h
      intro z hz
      rcases List.mem_cons.1 hz with rfl | hz
      · exact hxy
      · exact hTr x y z hxy (List.rel_of_pairwise_cons h hz)
    · simp only [if_neg hxy]
      have hyx : le y x = true := by
        rcases hTot x y with h1 | h1
        · exact absurd h1 hxy
        · exact h1
      refine List.Pairwise.cons ?_ (ih h.tail)
      intro z hz
      rcases (mem_insStable le x ys z).1 hz with rfl | hz
      · exact hyx
      · exact List.rel_of_pairwise_cons h hz

theorem jsSort_pairwise {α : Type} (le : α → α → Bool)
    (hTot : ∀ a b, le a b = true ∨ le b a = true)
    (hTr : ∀ a b c, le a b = true → le b c = true → le a c = true)
    (l : List α) : (jsSort le l).Pairwise (fun a b => le a b = true) := by
  induction l with
  | nil => simp [jsSort]
  | cons x xs ih => exact insStable_pairwise le hTot hTr x (jsSort le xs) ih

theorem insStable_of_le_head {α : Type} (le : α → α → Bool) (x : α) (l : List α)
    (h : ∀ z ∈ l, le x z = true) : insStable le x l = x :: l := by
  cases l with
  | nil => rfl
  | cons y ys => simp [insStable, h y (by simp)]

theorem jsSort_eq_self {α : Type} (le : α → α → Bool) (l : List α)
    (h : l.Pairwise (fun a b => le a b = true)) : jsSort le l = l := by
  induction l with
  | nil => rfl
  | cons x xs ih =>
    simp only [jsSort]
    rw [ih h.tail]
    exact insStable_of_le_head le x xs (fun z hz => List.rel_of_pairwise_cons h hz)

theorem actLe_total (a b : ActivityRecord) : actLe a b = true ∨ actLe b a = true := by
  simp only [actLe, decide_eq_true_eq]
  exact (Int.le_total (startMs b) (startMs a)).imp id id

theorem actLe_trans (a b c : ActivityRecord) :
    actLe a b = true → actLe b c = true → actLe a c = true := by
  simp only [actLe, decide_eq_true_eq]
  intro h1 h2
  exact le_trans h2 h1

/-! ### Lemmas about the id-keyed map -/

/-- Keys of the map. -/
def keysOf (m : AMap) : List String := m.map Prod.fst

/-- First-match lookup, modelling `Map.prototype.get`. -/
def lookupA (m : AMap) (k : String) : Option ActivityRecord :=
  (m.find? (fun p => p.1 = k)).map Prod.snd

theorem mapSet_guard_iff (m : AMap) (k : String) :
    (m.any (fun p => p.1 = k) = true) ↔ k ∈ keysOf m := by
  simp [keysOf, List.any_eq_true, List.mem_map]

theorem keysOf_mapSet (m : AMap) (k : String) (v : ActivityRecord) :
    keysOf (mapSet m k v) = if k ∈ keysOf m then keysOf m else keysOf m ++ [k] := by
  by_cases h : k ∈ keysOf m
  · rw [if_pos h]
    unfold mapSet
    rw [if_pos ((mapSet_guard_iff m k).2 h)]
    unfold keysOf
    rw [List.map_map]
    apply List.map_congr_left
    intro p _
    by_cases hp : p.1 = k
    · simp [hp]
    · simp [hp]
  · rw [if_neg h]
    unfold mapSet
    rw [if_neg (by rw [mapSet_guard_iff]; exact h)]
    simp [keysOf]

theorem keysOf_mapSet_nodup (m : AMap) (k : String) (v : ActivityRecord)
    (h : (keysOf m).Nodup) : (keysOf (mapSet m k v)).Nodup := by
  rw [keysOf_mapSet]
  by_cases hk : k ∈ keysOf m
  · rwa [if_pos hk]
  · rw [if_neg hk]
    rw [List.nodup_append]
    refine ⟨h, List.nodup_singleton k, ?_⟩
    intro x hx hx2
    simp at hx2
    subst hx2
    exact hk hx

theorem idinv_mapSet (m : AMap) (k : String) (v : ActivityRecord)
    (hm : ∀ p ∈ m, p.2.id = p.1) (hv : v.id = k) :
    ∀ p ∈ mapSet m k v, p.2.id = p.1 := by
  intro p hp
  unfold mapSet at hp
  by_cases h : m.any (fun p => p.1 = k) = true
  · rw [if_pos h] at hp
    rcases List.mem_map.1 hp with ⟨q, hq, he⟩
    by_cases hqk : q.1 = k
    · rw [if_pos hqk] at he
      rw [← he]
      exact hv
    · rw [if_neg hqk] at he
      rw [← he]
      exact hm q hq
  · rw [if_neg h] at hp
    rcases List.mem_append.1 hp with hp | hp
    · exact hm p hp
    · simp at hp
      rw [hp]
      exact hv

theorem lookupA_nil (k : String) : lookupA [] k = none := rfl

theorem lookupA_cons (p : String × ActivityRecord) (m : AMap) (k : String) :
    lookupA (p :: m) k = if p.1 = k then some p.2 else lookupA m k := by
  unfold lookupA
  by_cases h : p.1 = k
  · simp [List.find?_cons, h]
  · simp [List.find?_cons, h]

theorem lookupA_eq_none_of_not_mem (m : AMap) (k : String) (h : k ∉ keysOf m) :
    lookupA m k = none := by
  unfold lookupA
  rw [List.find?_eq_none.2]
  · rfl
  · intro p hp
    simp only [decide_eq_true_eq]
    intro he
    exact h (List.mem_map.2 ⟨p, hp, he⟩)

theorem lookupA_replace (m : AMap) (k : String) (v : ActivityRecord) (k' : String) :
    lookupA (m.map (fun p => if p.1 = k then (k, v) else p)) k' =
      if k' = k then (if k ∈ keysOf m then some v else none) else lookupA m k' := by
  induction m with
  | nil =>
    by_cases h : k' = k <;> simp [lookupA_nil, h, keysOf]
  | cons p m ih =>
    have hmemCons : ∀ (hpk : ¬ p.1 = k), (k ∈ keysOf (p :: m)) ↔ (k ∈ keysOf m) := by
      intro hpk
      simp only [keysOf, List.map_cons, List.mem_cons]
      constructor
      · rintro (he | hm2)
        · exact absurd he.symm hpk
        · exact hm2
      · exact Or.inr
    simp only [List.map_cons]
    by_cases hpk : p.1 = k
    · rw [if_pos hpk, lookupA_cons]
      by_cases hk' : k' = k
      · subst hk'
        rw [if_pos rfl, if_pos rfl]
        rw [if_pos (by simp only [keysOf, List.map_cons, List.mem_cons]; exact Or.inl hpk.symm)]
      · rw [if_neg (fun he : (k, v).1 = k' => hk' he.symm)]
        rw [lookupA_cons, ih]
        rw [if_neg hk', if_neg (show ¬ p.1 = k' from by rw [hpk]; exact fun he => hk' he.symm),
          if_neg hk']
    · rw [if_neg hpk, lookupA_cons, lookupA_cons]
      by_cases hpk' : p.1 = k'
      · rw [if_pos hpk', if_pos hpk']
        have hk' : ¬ (k' = k) := fun he => hpk (by rw [hpk', he])
        rw [if_neg hk']
      · rw [if_neg hpk', if_neg hpk', ih]
        by_cases hk' : k' = k
        · rw [if_pos hk', if_pos hk']
          by_cases hk2 : k ∈ keysOf m
          · rw [if_pos hk2, if_pos ((hmemCons hpk).2 hk2)]
          · rw [if_neg hk2, if_neg (fun hc => hk2 ((hmemCons hpk).1 hc))]
        · rw [if_neg hk', if_neg hk']

theorem lookupA_append_single (m : AMap) (k : String) (v : ActivityRecord) (k' : String) :
    lookupA (m ++ [(k, v)]) k' =
      match lookupA m k' with
      | some w => some w
      | none => if k' = k then some v else none := by
  induction m with
  | nil =>
    simp only [List.nil_append, lookupA_cons, lookupA_nil]
    by_cases h : k = k'
    · subst h
      simp
    · rw [if_neg h, if_neg (fun he : k' = k => h he.symm)]
  | cons p m ih =>
    simp only [List.cons_append, lookupA_cons, ih]
    by_cases h : p.1 = k'
    · simp [h]
    · simp [h]

theorem lookupA_mapSet (m : AMap) (k : String) (v : ActivityRecord) (k' : String) :
    lookupA (mapSet m k v) k' = if k' = k then some v else lookupA m k' := by
  unfold mapSet
  by_cases h : m.any (fun p => p.1 = k) = true
  · rw [if_pos h, lookupA_replace]
    have hk : k ∈ keysOf m := (mapSet_guard_iff m k).1 h
    by_cases hk' : k' = k
    · rw [if_pos hk', if_pos hk', if_pos hk]
    · rw [if_neg hk', if_neg hk']
  · rw [if_neg h, lookupA_append_single]
    have hk : k ∉ keysOf m := fun hm => h ((mapSet_guard_iff m k).2 hm)
    by_cases hk' : k' = k
    · subst hk'
      rw [lookupA_eq_none_of_not_mem m _ hk]
    · cases hf : lookupA m k' <;> simp [hf, hk']

theorem getLast?_cons_of_ne_nil {α : Type} (a : α) (l : List α) (h : l ≠ []) :
    (a :: l).getLast? = l.getLast? := by
  cases l with
  | nil => exact absurd rfl h
  | cons b t => rfl

theorem getLast?_cons_isSome {α : Type} (a : α) (l : List α) :
    ((a :: l).getLast?).isSome = true := by
  induction l generalizing a with
  | nil => rfl
  | cons b t ih =>
    rw [getLast?_cons_of_ne_nil a (b :: t) (by simp)]
    exact ih b

theorem lookupA_insertFresh (F : List RawActivity) :
    ∀ (m : AMap) (k : String),
      lookupA (insertFresh m F) k =
        match (F.filter (fun a => a.id = k)).getLast? with
        | some a => some (minimizeActivity a)
        | none => lookupA m k := by
  induction F with
  | nil =>
    intro m k
    rfl
  | cons a F ih =>
    intro m k
    have hstep : insertFresh m (a :: F) = insertFresh (mapSet m a.id (minimizeActivity a)) F := rfl
    rw [hstep, ih]
    by_cases hk : a.id = k
    · rw [List.filter_cons_of_pos (by simpa using hk)]
      cases hf : F.filter (fun x => decide (x.id = k)) with
      | nil =>
        show lookupA (mapSet m a.id (minimizeActivity a)) k = some (minimizeActivity a)
        rw [lookupA_mapSet, if_pos hk.symm]
      | cons b t =>
        rw [getLast?_cons_of_ne_nil a _ (by simp)]
        cases hg : (b :: t).getLast? with
        | none =>
          have := getLast?_cons_isSome b t
          rw [hg] at this
          simp at this
        | some x => rfl
    · rw [List.filter_cons_of_neg (by simpa using hk)]
      cases hf : F.filter (fun x => decide (x.id = k)) with
      | nil =>
        show lookupA (mapSet m a.id (minimizeActivity a)) k = lookupA m k
        rw [lookupA_mapSet, if_neg (fun he => hk he.symm)]
      | cons b t =>
        cases hg : (b :: t).getLast? with
        | none =>
          have := getLast?_cons_isSome b t
          rw [hg] at this
          simp at this
        | some x => rfl

theorem keysOf_insertCached_nodup (l : List ActivityRecord) :
    ∀ m : AMap, (keysOf m).Nodup → (keysOf (insertCached m l)).Nodup := by
  induction l with
  | nil => intro m h; exact h
  | cons a l ih =>
    intro m h
    exact ih (mapSet m a.id a) (keysOf_mapSet_nodup m a.id a h)

theorem keysOf_insertFresh_nodup (l : List RawActivity) :
    ∀ m : AMap, (keysOf m).Nodup → (keysOf (insertFresh m l)).Nodup := by
  induction l with
  | nil => intro m h; exact h
  | cons a l ih =>
    intro m h
    exact ih (mapSet m a.id (minimizeActivity a)) (keysOf_mapSet_nodup m _ _ h)

theorem minimizeActivity_id (a : RawActivity) : (minimizeActivity a).id = a.id := rfl

theorem idinv_insertCached (l : List ActivityRecord) :
    ∀ m : AMap, (∀ p ∈ m, p.2.id = p.1) → ∀ p ∈ insertCached m l, p.2.id = p.1 := by
  induction l with
  | nil => intro m h; exact h
  | cons a l ih =>
    intro m h
    exact ih (mapSet m a.id a) (idinv_mapSet m a.id a h rfl)

theorem idinv_insertFresh (l : List RawActivity) :
    ∀ m : AMap, (∀ p ∈ m, p.2.id = p.1) → ∀ p ∈ insertFresh m l, p.2.id = p.1 := by
  induction l with
  | nil => intro m h; exact h
  | cons a l ih =>
    intro m h
    exact ih (mapSet m a.id (minimizeActivity a))
      (idinv_mapSet m a.id (minimizeActivity a) h (minimizeActivity_id a))

theorem buildMap_keys_nodup (cached : List ActivityRecord) (fresh : List RawActivity) :
    (keysOf (buildMap cached fresh)).Nodup := by
  unfold buildMap
  exact keysOf_insertFresh_nodup fresh _
    (keysOf_insertCached_nodup cached [] (by simp [keysOf]))

theorem buildMap_idinv (cached : List ActivityRecord) (fresh : List RawActivity) :
    ∀ p ∈ buildMap cached fresh, p.2.id = p.1 := by
  unfold buildMap
  exact idinv_insertFresh fresh _ (idinv_insertCached cached [] (by simp))

theorem lookupA_of_mem_nodup (m : AMap) (k : String) (v : ActivityRecord)
    (hnd : (keysOf m).Nodup) (hm : (k, v) ∈ m) : lookupA m k = some v := by
  induction m with
  | nil => simp at hm
  | cons p m ih =>
    rw [lookupA_cons]
    have hnd2 : (p.1 :: keysOf m).Nodup := hnd
    rcases List.mem_cons.1 hm with he | hm2
    · rw [← he, if_pos rfl]
    · have hpk : ¬ p.1 = k := by
        intro he
        have h1 : k ∈ keysOf m := List.mem_map.2 ⟨(k, v), hm2, rfl⟩
        rw [he] at hnd2
        exact (List.nodup_cons.1 hnd2).1 h1
      rw [if_neg hpk]
      exact ih (List.nodup_cons.1 hnd2).2 hm2

/-- The merged list before sorting: map values with truthy ids. -/
def mergedPre (cached : List ActivityRecord) (fresh : List RawActivity) :
    List ActivityRecord :=
  ((buildMap cached fresh).map Prod.snd).filter (fun a => a.id ≠ "")

theorem mergeActivities_eq (cached : List ActivityRecord) (fresh : List RawActivity) :
    mergeActivities cached fresh = jsSort actLe (mergedPre cached fresh) := rfl

theorem values_ids_eq_keys (m : AMap) (hinv : ∀ p ∈ m, p.2.id = p.1) :
    (m.map Prod.snd).map ActivityRecord.id = keysOf m := by
  unfold keysOf
  rw [List.map_map]
  exact List.map_congr_left (fun p hp => hinv p hp)

theorem mergedPre_sublist (cached : List ActivityRecord) (fresh : List RawActivity) :
    (mergedPre cached fresh).Sublist ((buildMap cached fresh).map Prod.snd) :=
  List.filter_sublist _

theorem mergedPre_ids_nodup (cached : List ActivityRecord) (fresh : List RawActivity) :
    ((mergedPre cached fresh).map ActivityRecord.id).Nodup := by
  have h1 : (((buildMap cached fresh).map Prod.snd).map ActivityRecord.id).Nodup := by
    rw [values_ids_eq_keys _ (buildMap_idinv cached fresh)]
    exact buildMap_keys_nodup cached fresh
  exact List.Sublist.nodup ((mergedPre_sublist cached fresh).map ActivityRecord.id) h1

theorem mem_merge_iff (cached : List ActivityRecord) (fresh : List RawActivity)
    (r : ActivityRecord) :
    r ∈ mergeActivities cached fresh ↔ r ∈ mergedPre cached fresh := by
  rw [mergeActivities_eq]
  exact (jsSort_perm actLe (mergedPre cached fresh)).mem_iff

theorem merge_ids_nodup (cached : List ActivityRecord) (fresh : List RawActivity) :
    ((mergeActivities cached fresh).map ActivityRecord.id).Nodup := by
  rw [mergeActivities_eq]
  have hperm := (jsSort_perm actLe (mergedPre cached fresh)).map ActivityRecord.id
  exact hperm.nodup_iff.2 (mergedPre_ids_nodup cached fresh)

theorem merge_ids_ne_empty (cached : List ActivityRecord) (fresh : List RawActivity) :
    ∀ r ∈ mergeActivities cached fresh, r.id ≠ "" := by
  intro r hr
  have h2 : r ∈ mergedPre cached fresh := (mem_merge_iff cached fresh r).1 hr
  have := List.of_mem_filter h2
  simpa using this

theorem merge_sorted (cached : List ActivityRecord) (fresh : List RawActivity) :
    (mergeActivities cached fresh).Pairwise (fun a b => startMs b ≤ startMs a) := by
  rw [mergeActivities_eq]
  have := jsSort_pairwise actLe actLe_total actLe_trans (mergedPre cached fresh)
  refine this.imp ?_
  intro a b h
  simpa [actLe] using h

theorem mergedPre_lookup (cached : List ActivityRecord) (fresh : List RawActivity)
    (r : ActivityRecord) (hr : r ∈ mergedPre cached fresh) :
    lookupA (buildMap cached fresh) r.id = some r := by
  have hval : r ∈ (buildMap cached fresh).map Prod.snd := List.mem_of_mem_filter hr
  rcases List.mem_map.1 hval with ⟨p, hp, he⟩
  have hid : p.2.id = p.1 := buildMap_idinv cached fresh p hp
  have hpe : p = (r.id, r) := by
    rcases p with ⟨k, v⟩
    simp only at he hid
    rw [he] at hid
    rw [← hid, he]
  rw [hpe] at hp
  exact lookupA_of_mem_nodup _ _ _ (buildMap_keys_nodup cached fresh) hp

theorem merge_replacement (cached : List ActivityRecord) (fresh : List RawActivity) :
    ∀ r ∈ mergeActivities cached fresh, ∀ l : RawActivity,
      (fresh.filter (fun a => a.id = r.id)).getLast? = some l →
      r = minimizeActivity l := by
  intro r hr l hl
  have h2 : r ∈ mergedPre cached fresh := (mem_merge_iff cached fresh r).1 hr
  have hlook := mergedPre_lookup cached fresh r h2
  have hfold := lookupA_insertFresh fresh (insertCached [] cached) r.id
  have : lookupA (buildMap cached fresh) r.id = some (minimizeActivity l) := by
    unfold buildMap
    rw [hfold, hl]
  rw [this] at hlook
  exact (Option.some.inj hlook).symm

/-! ### Decomposition of a fresh insertion over an existing map -/

/-- Batch description of `insertFresh`'s effect on one existing pair: the
pair is overwritten by the minimization of the last fresh entry with its
key, if any. -/
def updPair (F : List RawActivity) (p : String × ActivityRecord) :
    String × ActivityRecord :=
  match (F.filter (fun a => a.id = p.1)).getLast? with
  | some a => (p.1, minimizeActivity a)
  | none => p

theorem updPair_fst (F : List RawActivity) (p : String × ActivityRecord) :
    (updPair F p).1 = p.1 := by
  unfold updPair
  cases (F.filter (fun a => a.id = p.1)).getLast? <;> rfl

theorem updPair_nil (p : String × ActivityRecord) : updPair [] p = p := rfl

theorem updPair_cons_ne (a : RawActivity) (F : List RawActivity)
    (p : String × ActivityRecord) (h : ¬ p.1 = a.id) :
    updPair (a :: F) p = updPair F p := by
  unfold updPair
  rw [List.filter_cons_of_neg (by simp; exact fun he => h he.symm)]

theorem updPair_step (a : RawActivity) (F : List RawActivity)
    (p : String × ActivityRecord) :
    updPair F (if p.1 = a.id then (a.id, minimizeActivity a) else p) =
      updPair (a :: F) p := by
  by_cases hp : p.1 = a.id
  · rw [if_pos hp]
    unfold updPair
    simp only
    rw [hp, List.filter_cons_of_pos (by simp)]
    cases hf : F.filter (fun x => decide (x.id = a.id)) with
    | nil => rfl
    | cons b t =>
      rw [getLast?_cons_of_ne_nil a _ (by simp)]
      cases hg : (b :: t).getLast? with
      | none =>
        have := getLast?_cons_isSome b t
        rw [hg] at this
        simp at this
      | some x => rfl
  · rw [if_neg hp, updPair_cons_ne a F p hp]

theorem keysOf_append (m m' : AMap) : keysOf (m ++ m') = keysOf m ++ keysOf m' := by
  simp [keysOf]

theorem keysOf_replace (m : AMap) (k : String) (v : ActivityRecord) :
    keysOf (m.map (fun p => if p.1 = k then (k, v) else p)) = keysOf m := by
  unfold keysOf
  rw [List.map_map]
  apply List.map_congr_left
  intro p _
  by_cases hp : p.1 = k
  · simp [hp]
  · simp [hp]

theorem mem_of_getLast?_some {α : Type} (l : List α) (b : α)
    (h : l.getLast? = some b) : b ∈ l := by
  induction l with
  | nil => simp [List.getLast?] at h
  | cons a t ih =>
    cases t with
    | nil =>
      have : a = b := by simpa [List.getLast?] using h
      simp [this]
    | cons c t' =>
      rw [getLast?_cons_of_ne_nil a _ (by simp)] at h
      exact List.mem_cons.2 (Or.inr (ih h))

theorem filter_getLast_id (F : List RawActivity) (k : String) (b : RawActivity)
    (h : (F.filter (fun a => a.id = k)).getLast? = some b) : b.id = k := by
  have hmem : b ∈ F.filter (fun a => a.id = k) := mem_of_getLast?_some _ b h
  have := List.of_mem_filter hmem
  simpa using this

theorem insertFresh_decomp (F : List RawActivity) :
    ∀ m : AMap, ∃ ex : AMap,
      insertFresh m F = m.map (updPair F) ++ ex
      ∧ ∀ p ∈ ex, p.1 ∈ F.map RawActivity.id ∧ p.1 ∉ keysOf m ∧ p.2.id = p.1 := by
  induction F with
  | nil =>
    intro m
    refine ⟨[], ?_, by simp⟩
    have : m.map (updPair []) = m := by
      have h1 : m.map (updPair []) = m.map id := List.map_congr_left (fun p _ => updPair_nil p)
      rw [h1, List.map_id]
    rw [this]
    simp [insertFresh]
  | cons a F ih =>
    intro m
    have hstep : insertFresh m (a :: F) = insertFresh (mapSet m a.id (minimizeActivity a)) F := rfl
    by_cases hmem : a.id ∈ keysOf m
    · have hms : mapSet m a.id (minimizeActivity a) =
          m.map (fun p => if p.1 = a.id then (a.id, minimizeActivity a) else p) := by
        unfold mapSet
        rw [if_pos ((mapSet_guard_iff _ _).2 hmem)]
      rcases ih (mapSet m a.id (minimizeActivity a)) with ⟨ex, hex, hprop⟩
      refine ⟨ex, ?_, ?_⟩
      · rw [hstep, hex, hms, List.map_map]
        have : m.map (updPair F ∘ fun p => if p.1 = a.id then (a.id, minimizeActivity a) else p) =
            m.map (updPair (a :: F)) :=
          List.map_congr_left (fun p _ => updPair_step a F p)
        rw [this]
      · intro p hp
        rcases hprop p hp with ⟨h1, h2, h3⟩
        rw [hms, keysOf_replace] at h2
        exact ⟨by simpa using Or.inr (by simpa using h1), h2, h3⟩
    · have hms : mapSet m a.id (minimizeActivity a) = m ++ [(a.id, minimizeActivity a)] := by
        unfold mapSet
        rw [if_neg (fun h => hmem ((mapSet_guard_iff _ _).1 h))]
      rcases ih (mapSet m a.id (minimizeActivity a)) with ⟨ex, hex, hprop⟩
      refine ⟨updPair F (a.id, minimizeActivity a) :: ex, ?_, ?_⟩
      · rw [hstep, hex, hms, List.map_append]
        have hmap : m.map (updPair F) = m.map (updPair (a :: F)) := by
          apply List.map_congr_left
          intro p hp
          have hne : ¬ p.1 = a.id := by
            intro he
            exact hmem (List.mem_map.2 ⟨p, hp, he⟩)
          exact (updPair_cons_ne a F p hne).symm
        rw [hmap]
        simp
      · intro p hp
        rcases List.mem_cons.1 hp with rfl | hp2
        · refine ⟨?_, ?_, ?_⟩
          · rw [updPair_fst]
            simp
          · rw [updPair_fst]
            exact hmem
          · unfold updPair
            cases hg : (F.filter (fun x => x.id = (a.id, minimizeActivity a).1)).getLast? with
            | none => exact minimizeActivity_id a
            | some b =>
              simp only
              exact filter_getLast_id F _ b hg
        · rcases hprop p hp2 with ⟨h1, h2, h3⟩
          rw [hms, keysOf_append] at h2
          refine ⟨by simpa using Or.inr (by simpa using h1), fun hc => h2 ?_, h3⟩
          simp only [List.mem_append]
          exact Or.inl hc

theorem insertCached_pairs (l : List ActivityRecord) :
    ∀ m : AMap, (∀ a ∈ l, a.id ∉ keysOf m) → (l.map ActivityRecord.id).Nodup →
      insertCached m l = m ++ l.map (fun a => (a.id, a)) := by
  induction l with
  | nil =>
    intro m _ _
    simp [insertCached]
  | cons a l ih =>
    intro m hdis hnd
    have hstep : insertCached m (a :: l) = insertCached (mapSet m a.id a) l := rfl
    have hset : mapSet m a.id a = m ++ [(a.id, a)] := by
      unfold mapSet
      rw [if_neg (fun h => hdis a (by simp) ((mapSet_guard_iff _ _).1 h))]
    have hnd2 : (∀ x ∈ l, ¬ x.id = a.id) ∧ (l.map ActivityRecord.id).Nodup := by
      simpa using hnd
    rw [hstep, hset, ih]
    · simp
    · intro b hb
      rw [keysOf_append]
      intro hc
      rcases List.mem_append.1 hc with hc | hc
      · exact hdis b (List.mem_cons.2 (Or.inr hb)) hc
      · have : b.id = a.id := by simpa [keysOf] using hc
        exact hnd2.1 b hb this
    · exact hnd2.2

theorem merge_pairwise_actLe (cached : List ActivityRecord) (fresh : List RawActivity) :
    (mergeActivities cached fresh).Pairwise (fun a b => actLe a b = true) := by
  rw [mergeActivities_eq]
  exact jsSort_pairwise actLe actLe_total actLe_trans _

theorem lookupA_some_elim (m : AMap) (k : String) (v : ActivityRecord)
    (h : lookupA m k = some v) : ∃ q ∈ m, q.1 = k ∧ q.2 = v := by
  unfold lookupA at h
  cases hf : m.find? (fun p => p.1 = k) with
  | none => rw [hf] at h; simp at h
  | some q =>
    rw [hf] at h
    refine ⟨q, List.mem_of_find?_eq_some hf, ?_, ?_⟩
    · have := List.find?_some hf
      simpa using this
    · simpa using h

theorem merge_empty_fresh (cached : List ActivityRecord)
    (h1 : (cached.map ActivityRecord.id).Nodup) (h2 : ∀ a ∈ cached, a.id ≠ "") :
    mergeActivities cached [] = jsSort actLe cached := by
  rw [mergeActivities_eq]
  unfold mergedPre buildMap
  have hic : insertCached [] cached = cached.map (fun a => (a.id, a)) := by
    have := insertCached_pairs cached [] (by simp [keysOf]) h1
    simpa using this
  have hif : insertFresh (insertCached [] cached) [] = insertCached [] cached := rfl
  rw [hif, hic, List.map_map]
  have hval : cached.map (Prod.snd ∘ fun a => (a.id, a)) = cached := by
    have : (Prod.snd ∘ fun (a : ActivityRecord) => (a.id, a)) = id := rfl
    rw [this, List.map_id]
  rw [hval]
  rw [List.filter_eq_self.2 (fun a ha => by simpa using h2 a ha)]

theorem merge_idem (cached : List ActivityRecord) (fresh : List RawActivity) :
    mergeActivities (mergeActivities cached fresh) fresh =
      mergeActivities cached fresh := by
  set M1 := mergeActivities cached fresh with hM1
  have hnd : (M1.map ActivityRecord.id).Nodup := merge_ids_nodup cached fresh
  have hne : ∀ r ∈ M1, r.id ≠ "" := merge_ids_ne_empty cached fresh
  have hic : insertCached [] M1 = M1.map (fun a => (a.id, a)) := by
    have := insertCached_pairs M1 [] (by simp [keysOf]) hnd
    simpa using this
  rcases insertFresh_decomp fresh (M1.map (fun a => (a.id, a))) with ⟨ex, hex, hprop⟩
  have hfix : (M1.map (fun a => (a.id, a))).map (updPair fresh) =
      M1.map (fun a => (a.id, a)) := by
    rw [List.map_map]
    apply List.map_congr_left
    intro r hr
    show updPair fresh (r.id, r) = (r.id, r)
    unfold updPair
    cases hg : (fresh.filter (fun a => a.id = (r.id, r).1)).getLast? with
    | none => rfl
    | some l =>
      simp only
      have : r = minimizeActivity l :=
        merge_replacement cached fresh r (hM1 ▸ hr) l (by simpa using hg)
      rw [← this]
  have hbuild : buildMap M1 fresh = M1.map (fun a => (a.id, a)) ++ ex := by
    unfold buildMap
    rw [hic, hex, hfix]
  have hexnil : ∀ p ∈ ex, p.2.id = "" := by
    intro p hp
    rcases hprop p hp with ⟨h1, h2, h3⟩
    by_contra hne2
    have hkne : p.1 ≠ "" := fun hc => hne2 (h3.trans hc)
    rcases List.mem_map.1 h1 with ⟨a, ha, haid⟩
    have hfne : fresh.filter (fun x => x.id = p.1) ≠ [] := by
      intro hc
      have : a ∈ fresh.filter (fun x => x.id = p.1) :=
        List.mem_filter.2 ⟨ha, by simpa using haid⟩
      rw [hc] at this
      simp at this
    obtain ⟨l, hl⟩ : ∃ l, (fresh.filter (fun x => x.id = p.1)).getLast? = some l := by
      cases hc : fresh.filter (fun x => x.id = p.1) with
      | nil => exact absurd hc hfne
      | cons b t =>
        have := getLast?_cons_isSome b t
        rcases Option.isSome_iff_exists.1 this with ⟨x, hx⟩
        exact ⟨x, hx⟩
    have hlook : lookupA (buildMap cached fresh) p.1 = some (minimizeActivity l) := by
      unfold buildMap
      rw [lookupA_insertFresh, hl]
    rcases lookupA_some_elim _ _ _ hlook with ⟨q, hq, hq1, hq2⟩
    have hqid : q.2.id = q.1 := buildMap_idinv cached fresh q hq
    have hval : q.2 ∈ (buildMap cached fresh).map Prod.snd := List.mem_map.2 ⟨q, hq, rfl⟩
    have hmem2 : q.2 ∈ mergedPre cached fresh := by
      refine List.mem_filter.2 ⟨hval, ?_⟩
      simp only [decide_eq_true_eq]
      rw [hqid, hq1]
      exact hkne
    have : p.1 ∈ M1.map ActivityRecord.id := by
      refine List.mem_map.2 ⟨q.2, ?_, by rw [hqid, hq1]⟩
      rw [hM1]
      exact (mem_merge_iff cached fresh q.2).2 hmem2
    exact h2 (by simpa [keysOf] using this)
  have hpre : mergedPre M1 fresh = M1 := by
    unfold mergedPre
    rw [hbuild, List.map_append, List.map_map]
    have hval : M1.map (Prod.snd ∘ fun a => (a.id, a)) = M1 := by
      have : (Prod.snd ∘ fun (a : ActivityRecord) => (a.id, a)) = id := rfl
      rw [this, List.map_id]
    rw [hval, List.filter_append]
    rw [List.filter_eq_self.2 (fun a ha => by simpa using hne a ha)]
    have : (ex.map Prod.snd).filter (fun a => a.id ≠ "") = [] := by
      rw [List.filter_eq_nil_iff]
      intro v hv
      rcases List.mem_map.1 hv with ⟨p, hp, he⟩
      simp only [decide_eq_true_eq, Decidable.not_not]
      rw [← he]
      exact hexnil p hp
    rw [this, List.append_nil]
  rw [mergeActivities_eq M1 fresh, hpre]
  exact jsSort_eq_self actLe M1 (merge_pairwise_actLe cached fresh)

/-! ### Fixtures for witnesses and counterexamples -/

/-- A minimized record with all optional fields absent. -/
def blankRec : ActivityRecord :=
  { id := "", sport_type := none, name := none, start_date := none,
    start_date_local := none, distance_m := none, moving_time_s := none,
    elapsed_time_s := none, total_elevation_gain_m := none, calories_kcal := none,
    kilojoules_kj := none, average_speed_mps := none, max_speed_mps := none,
    average_temp_c := none, average_watts := none, has_heartrate := none,
    average_heartrate := none, max_heartrate := none, device_name := none,
    trainer := none, commute := none, detail_attempted := false }

/-- A raw activity with all optional fields absent. -/
def blankRaw : RawActivity :=
  { id := "", sport_type := none, type' := none, name := none, start_date := none,
    start_date_local := none, distance := none, moving_time := none,
    elapsed_time := none, total_elevation_gain := none, calories := none,
    kilojoules := none, average_speed := none, max_speed := none,
    average_temp := none, average_watts := none, has_heartrate := none,
    average_heartrate := none, max_heartrate := none, device_name := none,
    trainer := none, commute := none, detail_attempted := none }

/-- Cached record used by the merge witnesses. -/
def recW1 : ActivityRecord :=
  { blankRec with id := "1", start_date := some ⟨1000, 2025, 1, 1⟩ }

/-- Stale cached record sharing the fresh record's identifier. -/
def recStale : ActivityRecord :=
  { blankRec with id := "2", distance_m := some 1, detail_attempted := true }

/-- Fresh raw activity used by the merge witnesses. -/
def rawW1 : RawActivity :=
  { blankRaw with id := "2", start_date := some ⟨2000, 2025, 1, 1⟩ }

/-- Record whose UTC start is 30 s past the epoch. -/
def recEpoch30 : ActivityRecord :=
  { blankRec with id := "1", start_date := some ⟨30000, 1970, 1, 1⟩ }

/-- Record whose UTC start is 1000 s past the epoch. -/
def recEpoch1000 : ActivityRecord :=
  { blankRec with id := "1", start_date := some ⟨1000000, 1970, 1, 1⟩ }

/-! ### Claim theorems: merge and watermark -/

/-- C5: merging is idempotent — merging the identical fresh set into the
result of a merge changes nothing; and merging an empty fresh set into a
(well-formed: duplicate-free, truthy-id) cache only re-sorts it. -/
theorem claim5_merge_idempotent (cached : List ActivityRecord) (fresh : List RawActivity) :
    mergeActivities (mergeActivities cached fresh) fresh = mergeActivities cached fresh
    ∧ ((cached.map ActivityRecord.id).Nodup → (∀ a ∈ cached, a.id ≠ "") →
        mergeActivities cached [] = jsSort actLe cached) :=
  ⟨merge_idem cached fresh, fun h1 h2 => merge_empty_fresh cached h1 h2⟩

/-- Witness for C5 at a concrete cache and fresh set. -/
theorem claim5_witness :
    mergeActivities (mergeActivities [recW1] [rawW1]) [rawW1] =
      mergeActivities [recW1] [rawW1]
    ∧ mergeActivities [recW1] [] = jsSort actLe [recW1] :=
  ⟨(claim5_merge_idempotent [recW1] [rawW1]).1,
   (claim5_merge_idempotent [recW1] []).2 (by decide) (by decide)⟩

/-- C6: a merged set has pairwise-distinct, non-empty identifiers, is
sorted by UTC start timestamp descending (absent timestamps sort as epoch
0, as in the source comparator), and any record whose identifier occurs in
the fresh set is exactly the minimization of the last fresh entry with that
identifier — a pure override, never a partial union with the cache. -/
theorem claim6_merge_invariants (cached : List ActivityRecord) (fresh : List RawActivity) :
    ((mergeActivities cached fresh).map ActivityRecord.id).Nodup
    ∧ (∀ r ∈ mergeActivities cached fresh, r.id ≠ "")
    ∧ (mergeActivities cached fresh).Pairwise (fun a b => startMs b ≤ startMs a)
    ∧ (∀ r ∈ mergeActivities cached fresh, ∀ l : RawActivity,
        (fresh.filter (fun a => a.id = r.id)).getLast? = some l →
        r = minimizeActivity l) :=
  ⟨merge_ids_nodup cached fresh, merge_ids_ne_empty cached fresh,
   merge_sorted cached fresh, merge_replacement cached fresh⟩

/-- Witness for C6: the fresh record fully overrides its stale cached
namesake. -/
theorem claim6_witness :
    minimizeActivity rawW1 ∈ mergeActivities [recStale] [rawW1]
    ∧ minimizeActivity rawW1 = minimizeActivity rawW1 := by
  constructor
  · decide
  · exact (claim6_merge_invariants [recStale] [rawW1]).2.2.2 (minimizeActivity rawW1)
      (by decide) rawW1 (by decide)

/-- C4 counterexample: with one merged record whose UTC start is epoch 30 s,
the code clamps the watermark at 0 instead of the claimed
`floor(newest epoch) − 60 = −30`. -/
theorem claim4_counterexample :
    computeNextWatermark [recEpoch30] 100 = 0 ∧ (0 : Int) ≠ 30 - 60 := by
  constructor
  · decide
  · decide

/-- Record with no UTC start timestamp. -/
def recNoDate : ActivityRecord := { blankRec with id := "1" }

/-- Record whose UTC start is 5 s before the epoch (floored epoch −5). -/
def recEpochNeg : ActivityRecord :=
  { blankRec with id := "1", start_date := some ⟨-5000, 1969, 12, 31⟩ }

/-- C4 amended: when the newest merged record has a positive floored UTC
epoch `e`, the next watermark is `max 0 (e − 60)` — hence at most `e`; when
the merged set is empty, or its newest record's timestamp is absent or has
a non-positive floored epoch, the watermark is the run's input value. -/
theorem claim4_watermark (merged : List ActivityRecord) (prev : Int) :
    (∀ a rest d, merged = a :: rest → a.start_date = some d →
        0 < Int.fdiv d.ms 1000 →
        computeNextWatermark merged prev = max 0 (Int.fdiv d.ms 1000 - 60)
        ∧ computeNextWatermark merged prev ≤ Int.fdiv d.ms 1000)
    ∧ (merged = [] → computeNextWatermark merged prev = prev)
    ∧ (∀ a rest, merged = a :: rest → a.start_date = none →
        computeNextWatermark merged prev = prev)
    ∧ (∀ a rest d, merged = a :: rest → a.start_date = some d →
        Int.fdiv d.ms 1000 ≤ 0 →
        computeNextWatermark merged prev = prev) := by
  refine ⟨?_, ?_, ?_, ?_⟩
  · rintro a rest d rfl hd hpos
    have hred : computeNextWatermark (a :: rest) prev =
        if Int.fdiv d.ms 1000 > 0 then max 0 (Int.fdiv d.ms 1000 - 60) else prev := by
      unfold computeNextWatermark
      simp [hd]
    rw [hred, if_pos hpos]
    refine ⟨rfl, ?_⟩
    exact max_le (le_of_lt hpos) (by omega)
  · rintro rfl
    rfl
  · rintro a rest rfl hd
    have hred : computeNextWatermark (a :: rest) prev =
        if (0 : Int) > 0 then max 0 (0 - 60) else prev := by
      unfold computeNextWatermark
      simp [hd]
    rw [hred, if_neg (by omega)]
  · rintro a rest d rfl hd hle
    have hred : computeNextWatermark (a :: rest) prev =
        if Int.fdiv d.ms 1000 > 0 then max 0 (Int.fdiv d.ms 1000 - 60) else prev := by
      unfold computeNextWatermark
      simp [hd]
    rw [hred, if_neg (by omega)]

/-- Witness for C4 at a concrete record (epoch 1000 s), the empty set, a
record without a timestamp, and a record with a negative epoch. -/
theorem claim4_witness :
    (computeNextWatermark [recEpoch1000] 5 = max 0 (Int.fdiv 1000000 1000 - 60)
      ∧ computeNextWatermark [recEpoch1000] 5 ≤ Int.fdiv 1000000 1000)
    ∧ computeNextWatermark [] (5 : Int) = 5
    ∧ computeNextWatermark [recNoDate] 7 = 7
    ∧ computeNextWatermark [recEpochNeg] 9 = 9 :=
  ⟨(claim4_watermark [recEpoch1000] 5).1 recEpoch1000 [] ⟨1000000, 1970, 1, 1⟩ rfl rfl
      (by decide),
   (claim4_watermark [] 5).2.1 rfl,
   (claim4_watermark [recNoDate] 7).2.2.1 recNoDate [] rfl rfl,
   (claim4_watermark [recEpochNeg] 9).2.2.2 recEpochNeg [] ⟨-5000, 1969, 12, 31⟩ rfl rfl
      (by decide)⟩

/-! ### Claim theorems: detail backfill -/

theorem backfillGo_count (env : Env) (freshIds : List String) (detailMax : Int)
    (l : List ActivityRecord) : ∀ fetched : Nat,
    ((backfillGo env freshIds detailMax l fetched).2.1 : Int) ≤
      max detailMax (fetched : Int) := by
  induction l with
  | nil =>
    intro fetched
    simp only [backfillGo]
    exact le_max_right _ _
  | cons a rest ih =>
    intro fetched
    simp only [backfillGo]
    by_cases h1 : detailMax ≤ (fetched : Int)
    · rw [if_pos h1]
      exact le_max_right _ _
    · rw [if_neg h1]
      by_cases h2 : a.id = ""
      · rw [if_pos h2]
        exact ih fetched
      · rw [if_neg h2]
        by_cases h3 : a.id ∈ freshIds
        · rw [if_neg (not_not_intro h3)]
          by_cases h4 : a.detail_attempted
          · rw [if_pos h4]
            exact ih fetched
          · rw [if_neg h4]
            by_cases h5 : a.calories_kcal.isSome ∨ a.kilojoules_kj.isSome
            · rw [if_pos h5]
              exact ih fetched
            · rw [if_neg h5]
              cases hd : env.detailResp a.id with
              | ok d =>
                have hle : (fetched : Int) + 1 ≤ detailMax := by omega
                have h := ih (fetched + 1)
                have hcast : ((fetched + 1 : Nat) : Int) = (fetched : Int) + 1 := by
                  push_cast
                  ring
                calc ((backfillGo env freshIds detailMax rest (fetched + 1)).2.1 : Int)
                    ≤ max detailMax ((fetched + 1 : Nat) : Int) := h
                  _ = detailMax := by rw [hcast]; exact max_eq_left hle
                  _ ≤ max detailMax (fetched : Int) := le_max_left _ _
              | error e =>
                exact ih fetched
        · rw [if_pos h3]
          exact ih fetched

theorem runBackfill_count (env : Env) (freshIds : List String) (detailMax : Int)
    (merged : List ActivityRecord) :
    ((runBackfill env freshIds detailMax merged).2.1 : Int) ≤ max detailMax 0 := by
  unfold runBackfill
  by_cases h : detailMax > 0
  · rw [if_pos h]
    have := backfillGo_count env freshIds detailMax merged 0
    simpa using this
  · rw [if_neg h]
    exact le_max_right _ _

theorem runBackfill_disabled (env : Env) (freshIds : List String) (detailMax : Int)
    (merged : List ActivityRecord) (h : detailMax ≤ 0) :
    runBackfill env freshIds detailMax merged = (merged, 0, []) := by
  unfold runBackfill
  rw [if_neg (by omega)]

/-- Eligible fresh raw activity (id "1", newer). -/
def rawE1 : RawActivity :=
  { blankRaw with id := "1", start_date := some ⟨2000000, 2025, 1, 1⟩ }

/-- Eligible fresh raw activity (id "2", older). -/
def rawE2 : RawActivity :=
  { blankRaw with id := "2", start_date := some ⟨1000000, 2025, 1, 1⟩ }

/-- A run environment whose detail endpoint always fails, with a configured
detail maximum of 1 and two fresh activities lacking energy fields. -/
def envC3 : Env :=
  { envClientId := some "id"
    envClientSecret := some "secret"
    envRefreshToken := some "tok"
    envInitialAfterEpoch := none
    envDetailMax := some 1
    baseline := { running := none }
    state0 := { lastSyncEpoch := 0, updatedAt := none }
    cached := []
    tokenResp := Except.ok { access_token := some "t", athlete_id := none }
    statsResp := fun _ => Except.error "unused"
    pageResp := fun p _ =>
      if p = 1 then Except.ok (PageBody.arr [rawE1, rawE2]) else Except.ok (PageBody.arr [])
    detailResp := fun _ => Except.error "boom"
    nowIso := "2025-06-01T00:00:00.000Z" }

/-- C3 counterexample: with a configured maximum of 1 and both detail
lookups failing, the run issues 2 detail requests — failed lookups do not
count against the budget, so issued requests exceed the maximum. -/
theorem claim3_counterexample :
    (runMain envC3).map (fun r => r.detailRequests) = Except.ok ["1", "2"]
    ∧ detailMaxOf envC3 = 1
    ∧ ¬ (((2 : Nat) : Int) ≤ detailMaxOf envC3) := by
  refine ⟨rfl, by decide, by decide⟩

/-- C3 amended: the number of SUCCESSFUL detail lookups per run never
exceeds the configured maximum (clamped below at 0), and a non-positive
configured maximum disables the pass — no detail request is issued at all. -/
theorem claim3_backfill_bound (env : Env) (freshIds : List String) (detailMax : Int)
    (merged : List ActivityRecord) :
    ((runBackfill env freshIds detailMax merged).2.1 : Int) ≤ max detailMax 0
    ∧ (detailMax ≤ 0 → (runBackfill env freshIds detailMax merged).2.2 = []) :=
  ⟨runBackfill_count env freshIds detailMax merged,
   fun h => by rw [runBackfill_disabled env freshIds detailMax merged h]⟩

/-- Witness for C3 at a concrete environment, including the disabled case. -/
theorem claim3_witness :
    (((runBackfill envC3 ["1"] 0 [blankRec]).2.1 : Int) ≤ max 0 0
      ∧ (runBackfill envC3 ["1"] 0 [blankRec]).2.2 = []) :=
  ⟨(claim3_backfill_bound envC3 ["1"] 0 [blankRec]).1,
   (claim3_backfill_bound envC3 ["1"] 0 [blankRec]).2 (by decide)⟩

/-- The raw activity of the C2 scenario: id "7", no energy fields,
re-fetched identically in two consecutive runs (the 60 s watermark margin
guarantees recent records reappear in the next run's fresh window). -/
def c2Raw : RawActivity :=
  { blankRaw with id := "7", start_date := some ⟨5000000, 2025, 1, 1⟩ }

/-- Run-1 environment for C2: empty cache, one fresh activity, failing
detail endpoint, default detail maximum. -/
def envRun1 : Env :=
  { envC3 with
    envDetailMax := none
    pageResp := fun p _ =>
      if p = 1 then Except.ok (PageBody.arr [c2Raw]) else Except.ok (PageBody.arr []) }

/-- The cache persisted by run 1. -/
def c2CacheAfterRun1 : List ActivityRecord :=
  match runMain envRun1 with
  | Except.ok r => r.cacheOut
  | Except.error _ => []

/-- Run-2 environment: run 1's persisted cache, identical fresh fetch. -/
def envRun2 : Env := { envRun1 with cached := c2CacheAfterRun1 }

/-- C2 (code bug): run 1 issues a detail lookup for record "7" and persists
it with `detail_attempted = true`; but run 2's merge re-minimizes the
re-fetched raw object, whose `detail_attempted` defaults to `false`, so the
flag is cleared and run 2 issues a second lifetime lookup for the same
record — contradicting the "at most one attempt per record across all
time" policy and the source's own comment that re-fetching details for the
same activity is to be avoided. -/
theorem claim2_code_bug :
    (runMain envRun1).map (fun r => r.detailRequests) = Except.ok ["7"]
    ∧ c2CacheAfterRun1.map ActivityRecord.detail_attempted = [true]
    ∧ (mergeActivities c2CacheAfterRun1 [c2Raw]).map ActivityRecord.detail_attempted = [false]
    ∧ (runMain envRun2).map (fun r => r.detailRequests) = Except.ok ["7"] := by
  exact ⟨rfl, by decide, by decide, rfl⟩

/-! ### Claim theorems: stats totals scenario -/

/-- Baseline of the C1 scenario with pace text "6:00". -/
def c1Baseline : Baseline :=
  { running := some
      { totalDistanceKm := some 500, avgPaceText := some "6:00",
        sinceLabel := none, best := none } }

/-- The engine's pace notation for six minutes per km. -/
def c1PaceGood : String := "6" ++ aposS ++ "00" ++ aposS ++ aposS

/-- Baseline of the C1 scenario with the pace in the notation the engine
actually parses. -/
def c1BaselineGood : Baseline :=
  { running := some
      { totalDistanceKm := some 500, avgPaceText := some c1PaceGood,
        sinceLabel := none, best := none } }

/-- The single local running record of the C1 scenario: 10 km, 3600 s. -/
def c1Rec : ActivityRecord :=
  { blankRec with
    id := "1"
    sport_type := some "Run"
    distance_m := some 10000
    moving_time_s := some 3600
    start_date := some ⟨1735689600000, 2025, 1, 1⟩
    start_date_local := some ⟨1735689600000, 2025, 1, 1⟩ }

set_option maxRecDepth 100000 in
/-- C1 counterexample: the baseline pace parser matches pace notation
`M'SS''`, not "minutes:seconds" — on "6:00" it yields 0, so the scenario's
running time is 1 h with card value "1", not the claimed 51.0; the
distance card evaluates to "510" (trailing zeros trimmed), numerically
510.00 as claimed. -/
theorem claim1_counterexample :
    parsePaceToSeconds (some "6:00") = 0
    ∧ runTimeHOf c1Baseline [c1Rec] none = 1
    ∧ (computeSportsStats c1Baseline [c1Rec] none "t").running.cards.totalTime.value = "1"
    ∧ ¬ ((1 : ℚ) = 51)
    ∧ runDistanceKmOf c1Baseline [c1Rec] none = 510 := by
  refine ⟨by decide, ?_, ?_, ?_, ?_⟩ <;> with_unfolding_all decide

set_option maxRecDepth 100000 in
/-- C1 amended: with the pace text given in the engine's pace notation
(6'00'' per km), the scenario yields a running distance of 510 km (card
value "510", i.e. 510.00 with trailing zeros trimmed) and a running time
of 51 h — 50 h baseline contribution plus 1 h local — with card value
"51" (51.0 trimmed). -/
theorem claim1_amended :
    parsePaceToSeconds (some c1PaceGood) = 360
    ∧ runDistanceKmOf c1BaselineGood [c1Rec] none = 510
    ∧ (computeSportsStats c1BaselineGood [c1Rec] none "t").running.cards.totalDistance.value = "510"
    ∧ baselineTimeHOf c1BaselineGood = 50
    ∧ runTimeHOf c1BaselineGood [c1Rec] none = 51
    ∧ (computeSportsStats c1BaselineGood [c1Rec] none "t").running.cards.totalTime.value = "51" := by
  refine ⟨by decide, ?_, ?_, ?_, ?_, ?_⟩ <;> with_unfolding_all decide

/-! ### Claim theorems: farthest-run personal record -/

/-- C7: the local farthest-run distance replaces the baseline farthest
value and subtext only when strictly greater; whenever the local maximum is
at most the baseline value (in particular on ties), the baseline's value
and pre-formatted subtext are kept. -/
theorem claim7_farthest_strict (baseline : Baseline) (activities : List ActivityRecord)
    (h : bestRunKmOf activities ≤ baselineFarthestKm baseline) :
    farthestValueOf baseline activities = toFixedTrim (baselineFarthestKm baseline) 1
    ∧ farthestSubtextOf baseline activities = baselineFarthestSubtext baseline := by
  unfold farthestValueOf farthestSubtextOf
  unfold bestRunKmOf at h
  cases hb : bestRunOf (runsOf activities) with
  | none => exact ⟨rfl, rfl⟩
  | some b =>
    rw [hb] at h
    constructor
    · show (if b.2 > baselineFarthestKm baseline
          then toFixedTrim b.2 (if b.2 ≥ 10 then 1 else 2)
          else toFixedTrim (baselineFarthestKm baseline) 1) =
        toFixedTrim (baselineFarthestKm baseline) 1
      rw [if_neg (not_lt.2 h)]
    · show (if b.2 > baselineFarthestKm baseline
          then
            match formatPaceSecPerKm
                (qOf b.1.moving_time_s / clamp b.2 (1 / 1000) ((10 : ℚ) ^ 9)) with
            | some p => some (p ++ " @" ++ formatDateYmdDot (dateLocalOr b.1))
            | none => some ("@" ++ formatDateYmdDot (dateLocalOr b.1))
          else baselineFarthestSubtext baseline) =
        baselineFarthestSubtext baseline
      rw [if_neg (not_lt.2 h)]

/-- Baseline with a curated 10 km farthest run. -/
def c7Baseline : Baseline :=
  { running := some
      { totalDistanceKm := none, avgPaceText := none, sinceLabel := none,
        best := some
          { farthest := some
              { distanceKm := some 10, paceText := some "p", dateText := some "d" },
            best5k := none, best10k := none } } }

/-- Local running record tying the baseline farthest distance exactly. -/
def c7Rec : ActivityRecord :=
  { blankRec with
    id := "1"
    sport_type := some "Run"
    distance_m := some 10000
    moving_time_s := some 3600 }

/-- Witness for C7: an exact tie keeps the baseline value and subtext. -/
theorem claim7_witness :
    bestRunKmOf [c7Rec] ≤ baselineFarthestKm c7Baseline
    ∧ (farthestValueOf c7Baseline [c7Rec] = toFixedTrim (baselineFarthestKm c7Baseline) 1
        ∧ farthestSubtextOf c7Baseline [c7Rec] = baselineFarthestSubtext c7Baseline) :=
  ⟨by with_unfolding_all decide,
   claim7_farthest_strict c7Baseline [c7Rec] (by with_unfolding_all decide)⟩

/-! ### Claim theorems: best 5K / 10K -/

/-- The candidate predicate of the (amended) C8: distance within tolerance
of the target and positive moving time. -/
def isCand (targetKm tolKm : ℚ) (a : ActivityRecord) : Prop :=
  |qOf a.distance_m / 1000 - targetKm| ≤ tolKm ∧ 0 < qOf a.moving_time_s

instance (t tol : ℚ) (a : ActivityRecord) : Decidable (isCand t tol a) := by
  unfold isCand
  infer_instance

theorem bfdStep_not_cand (t tol : ℚ) (best : Option BestCand) (a : ActivityRecord)
    (h : ¬ isCand t tol a) : bfdStep t tol best a = best := by
  unfold bfdStep
  by_cases h1 : |qOf a.distance_m / 1000 - t| > tol
  · rw [if_pos h1]
  · rw [if_neg h1]
    have h2 : qOf a.moving_time_s ≤ 0 := by
      rcases not_and_or.1 h with h3 | h3
      · exact absurd (not_lt.1 h1) h3
      · exact not_lt.1 h3
    rw [if_pos h2]

theorem bfdStep_none_cand (t tol : ℚ) (a : ActivityRecord) (h : isCand t tol a) :
    bfdStep t tol none a =
      some ⟨a, qOf a.distance_m / 1000, qOf a.moving_time_s,
        qOf a.moving_time_s / clamp (qOf a.distance_m / 1000) (1 / 1000) ((10 : ℚ) ^ 9)⟩ := by
  unfold bfdStep
  rw [if_neg (not_lt.2 h.1), if_neg (not_le.2 h.2)]

theorem bfdStep_some_facts (t tol : ℚ) (b0 : BestCand) (a : ActivityRecord) :
    ∃ c1, bfdStep t tol (some b0) a = some c1
      ∧ c1.timeSec ≤ b0.timeSec
      ∧ (c1 = b0 ∨ (c1.a = a ∧ isCand t tol a ∧ c1.timeSec = qOf a.moving_time_s
          ∧ c1.km = qOf a.distance_m / 1000))
      ∧ (isCand t tol a → c1.timeSec ≤ qOf a.moving_time_s) := by
  by_cases hc : isCand t tol a
  · unfold bfdStep
    rw [if_neg (not_lt.2 hc.1), if_neg (not_le.2 hc.2)]
    by_cases hlt : qOf a.moving_time_s < b0.timeSec
    · refine ⟨⟨a, qOf a.distance_m / 1000, qOf a.moving_time_s,
        qOf a.moving_time_s / clamp (qOf a.distance_m / 1000) (1 / 1000) ((10 : ℚ) ^ 9)⟩,
        ?_, le_of_lt hlt, Or.inr ⟨rfl, hc, rfl, rfl⟩, fun _ => le_refl _⟩
      show (if qOf a.moving_time_s < b0.timeSec then
          some (⟨a, qOf a.distance_m / 1000, qOf a.moving_time_s,
            qOf a.moving_time_s / clamp (qOf a.distance_m / 1000) (1 / 1000) ((10 : ℚ) ^ 9)⟩ : BestCand)
        else some b0) = _
      rw [if_pos hlt]
    · refine ⟨b0, ?_, le_refl _, Or.inl rfl, fun _ => not_lt.1 hlt⟩
      show (if qOf a.moving_time_s < b0.timeSec then
          some (⟨a, qOf a.distance_m / 1000, qOf a.moving_time_s,
            qOf a.moving_time_s / clamp (qOf a.distance_m / 1000) (1 / 1000) ((10 : ℚ) ^ 9)⟩ : BestCand)
        else some b0) = some b0
      rw [if_neg hlt]
  · rw [bfdStep_not_cand t tol _ a hc]
    exact ⟨b0, rfl, le_refl _, Or.inl rfl, fun h => absurd h hc⟩

theorem bfd_foldl_char (t tol : ℚ) (l : List ActivityRecord) :
    ∀ (acc : Option BestCand) (c : BestCand),
      l.foldl (bfdStep t tol) acc = some c →
      (acc = some c ∨ (c.a ∈ l ∧ isCand t tol c.a ∧ c.timeSec = qOf c.a.moving_time_s
        ∧ c.km = qOf c.a.distance_m / 1000))
      ∧ (∀ b, acc = some b → c.timeSec ≤ b.timeSec)
      ∧ (∀ a ∈ l, isCand t tol a → c.timeSec ≤ qOf a.moving_time_s) := by
  induction l with
  | nil =>
    intro acc c h
    simp only [List.foldl_nil] at h
    refine ⟨Or.inl h, ?_, by simp⟩
    intro b hb
    rw [h] at hb
    cases Option.some.inj hb
    exact le_refl _
  | cons a l ih =>
    intro acc c h
    rw [List.foldl_cons] at h
    by_cases hc : isCand t tol a
    · cases acc with
      | none =>
        rw [bfdStep_none_cand t tol a hc] at h
        rcases ih _ c h with ⟨h1, h2, h3⟩
        have hle : c.timeSec ≤ qOf a.moving_time_s := by
          have := h2 _ rfl
          simpa using this
        refine ⟨?_, ?_, ?_⟩
        · right
          rcases h1 with h1 | ⟨hm, hc2, hts, hkm⟩
          · have hc2 := Option.some.inj h1
            rw [← hc2]
            exact ⟨List.mem_cons_self a l, hc, rfl, rfl⟩
          · exact ⟨List.mem_cons.2 (Or.inr hm), hc2, hts, hkm⟩
        · intro b hb
          simp at hb
        · intro x hx hcx
          rcases List.mem_cons.1 hx with rfl | hx
          · exact hle
          · exact h3 x hx hcx
      | some b0 =>
        rcases bfdStep_some_facts t tol b0 a with ⟨c1, hc1eq, hc1le, hc1or, hc1cand⟩
        rw [hc1eq] at h
        rcases ih _ c h with ⟨h1, h2, h3⟩
        have hle1 : c.timeSec ≤ c1.timeSec := h2 c1 rfl
        refine ⟨?_, ?_, ?_⟩
        · rcases h1 with h1 | ⟨hm, hc2, hts, hkm⟩
          · have hcc1 : c = c1 := (Option.some.inj h1).symm
            rcases hc1or with hb | ⟨ha, hc2, hts, hkm⟩
            · left
              rw [hcc1, hb]
            · right
              rw [hcc1]
              exact ⟨by rw [ha]; exact List.mem_cons_self a l, by rwa [ha],
                by rw [ha]; exact hts, by rw [ha]; exact hkm⟩
          · right
            exact ⟨List.mem_cons.2 (Or.inr hm), hc2, hts, hkm⟩
        · intro b hb
          cases Option.some.inj hb
          exact le_trans hle1 hc1le
        · intro x hx hcx
          rcases List.mem_cons.1 hx with rfl | hx
          · exact le_trans hle1 (hc1cand hcx)
          · exact h3 x hx hcx
    · rw [bfdStep_not_cand t tol acc a hc] at h
      rcases ih acc c h with ⟨h1, h2, h3⟩
      refine ⟨?_, h2, ?_⟩
      · rcases h1 with h1 | ⟨hm, hc2, hts, hkm⟩
        · exact Or.inl h1
        · exact Or.inr ⟨List.mem_cons.2 (Or.inr hm), hc2, hts, hkm⟩
      · intro x hx hcx
        rcases List.mem_cons.1 hx with rfl | hx
        · exact absurd hcx hc
        · exact h3 x hx hcx

theorem bfd_foldl_isSome (t tol : ℚ) (l : List ActivityRecord) :
    ∀ b : BestCand, (l.foldl (bfdStep t tol) (some b)).isSome = true := by
  induction l with
  | nil => intro b; rfl
  | cons a l ih =>
    intro b
    rw [List.foldl_cons]
    rcases bfdStep_some_facts t tol b a with ⟨c1, hc1eq, _, _, _⟩
    rw [hc1eq]
    exact ih c1

theorem bfd_foldl_some_of_cand (t tol : ℚ) (l : List ActivityRecord) :
    (∃ a ∈ l, isCand t tol a) → (l.foldl (bfdStep t tol) none).isSome = true := by
  induction l with
  | nil => rintro ⟨a, ha, _⟩; simp at ha
  | cons a l ih =>
    rintro ⟨x, hx, hcx⟩
    rw [List.foldl_cons]
    by_cases hc : isCand t tol a
    · rw [bfdStep_none_cand t tol a hc]
      exact bfd_foldl_isSome t tol l _
    · rw [bfdStep_not_cand t tol none a hc]
      rcases List.mem_cons.1 hx with rfl | hx2
      · exact absurd hcx hc
      · exact ih ⟨x, hx2, hcx⟩

theorem findBest_some_char (runs : List ActivityRecord) (t tol : ℚ) (c : BestCand)
    (h : findBestForDistance runs t tol = some c) :
    c.a ∈ runs ∧ isCand t tol c.a ∧ c.timeSec = qOf c.a.moving_time_s
    ∧ ∀ a ∈ runs, isCand t tol a → c.timeSec ≤ qOf a.moving_time_s := by
  rcases bfd_foldl_char t tol runs none c h with ⟨h1, _, h3⟩
  rcases h1 with h1 | ⟨hm, hc2, hts, _⟩
  · simp at h1
  · exact ⟨hm, hc2, hts, h3⟩

theorem findBest_none_char (runs : List ActivityRecord) (t tol : ℚ)
    (h : findBestForDistance runs t tol = none) :
    ∀ a ∈ runs, ¬ isCand t tol a := by
  intro a ha hc
  have h2 := bfd_foldl_some_of_cand t tol runs ⟨a, ha, hc⟩
  unfold findBestForDistance at h
  rw [h] at h2
  simp at h2

theorem bestValue5k_replace (baseline : Baseline) (activities : List ActivityRecord)
    (c : BestCand) (s : Int)
    (hc : findBestForDistance (runsOf activities) 5 (2 / 25) = some c)
    (hs : baseline5kSecOf baseline = some s) :
    (c.timeSec < (s : ℚ) →
      best5kValueOf baseline activities = formatTimeMinTextFromSec c.timeSec)
    ∧ (¬ c.timeSec < (s : ℚ) →
      best5kValueOf baseline activities =
        some (((baseline5kOf baseline).bind BaselinePRTime.timeText).getD "")) := by
  constructor
  · intro hlt
    unfold best5kValueOf
    rw [hc, hs]
    show (match (if c.timeSec < (s : ℚ) then some c else none : Option BestCand) with
      | some c => formatTimeMinTextFromSec c.timeSec
      | none => some (((baseline5kOf baseline).bind BaselinePRTime.timeText).getD "")) = _
    rw [if_pos hlt]
  · intro hlt
    unfold best5kValueOf
    rw [hc, hs]
    show (match (if c.timeSec < (s : ℚ) then some c else none : Option BestCand) with
      | some c => formatTimeMinTextFromSec c.timeSec
      | none => some (((baseline5kOf baseline).bind BaselinePRTime.timeText).getD "")) = _
    rw [if_neg hlt]

theorem bestValue5k_keep (baseline : Baseline) (activities : List ActivityRecord)
    (h : findBestForDistance (runsOf activities) 5 (2 / 25) = none
      ∨ baseline5kSecOf baseline = none) :
    best5kValueOf baseline activities =
      some (((baseline5kOf baseline).bind BaselinePRTime.timeText).getD "") := by
  unfold best5kValueOf
  rcases h with h | h
  · rw [h]
    cases baseline5kSecOf baseline <;> rfl
  · rw [h]
    cases findBestForDistance (runsOf activities) 5 (2 / 25) <;> rfl

theorem bestValue10k_replace (baseline : Baseline) (activities : List ActivityRecord)
    (c : BestCand) (s : Int)
    (hc : findBestForDistance (runsOf activities) 10 (3 / 25) = some c)
    (hs : baseline10kSecOf baseline = some s) :
    (c.timeSec < (s : ℚ) →
      best10kValueOf baseline activities = formatTimeMinTextFromSec c.timeSec)
    ∧ (¬ c.timeSec < (s : ℚ) →
      best10kValueOf baseline activities =
        some (((baseline10kOf baseline).bind BaselinePRTime.timeText).getD "")) := by
  constructor
  · intro hlt
    unfold best10kValueOf
    rw [hc, hs]
    show (match (if c.timeSec < (s : ℚ) then some c else none : Option BestCand) with
      | some c => formatTimeMinTextFromSec c.timeSec
      | none => some (((baseline10kOf baseline).bind BaselinePRTime.timeText).getD "")) = _
    rw [if_pos hlt]
  · intro hlt
    unfold best10kValueOf
    rw [hc, hs]
    show (match (if c.timeSec < (s : ℚ) then some c else none : Option BestCand) with
      | some c => formatTimeMinTextFromSec c.timeSec
      | none => some (((baseline10kOf baseline).bind BaselinePRTime.timeText).getD "")) = _
    rw [if_neg hlt]

theorem bestValue10k_keep (baseline : Baseline) (activities : List ActivityRecord)
    (h : findBestForDistance (runsOf activities) 10 (3 / 25) = none
      ∨ baseline10kSecOf baseline = none) :
    best10kValueOf baseline activities =
      some (((baseline10kOf baseline).bind BaselinePRTime.timeText).getD "") := by
  unfold best10kValueOf
  rcases h with h | h
  · rw [h]
    cases baseline10kSecOf baseline <;> rfl
  · rw [h]
    cases findBestForDistance (runsOf activities) 10 (3 / 25) <;> rfl

/-- C8 amended: for the best-5K (±0.08 km) and best-10K (±0.12 km) values,
the engine selects among local running records WITH POSITIVE MOVING TIME
the minimum-moving-time record within tolerance (records with non-positive
or absent moving time are never candidates), and the candidate's formatted
time replaces the baseline only when strictly below the baseline's parsed
time; otherwise (no candidate, tie/slower candidate, or unparseable
baseline) the baseline's pre-formatted text is retained verbatim. -/
theorem claim8_best_time_rules (baseline : Baseline) (activities : List ActivityRecord) :
    (∀ c, findBestForDistance (runsOf activities) 5 (2 / 25) = some c →
        c.a ∈ runsOf activities ∧ isCand 5 (2 / 25) c.a
        ∧ c.timeSec = qOf c.a.moving_time_s
        ∧ ∀ a ∈ runsOf activities, isCand 5 (2 / 25) a → c.timeSec ≤ qOf a.moving_time_s)
    ∧ (findBestForDistance (runsOf activities) 5 (2 / 25) = none →
        ∀ a ∈ runsOf activities, ¬ isCand 5 (2 / 25) a)
    ∧ (∀ c s, findBestForDistance (runsOf activities) 5 (2 / 25) = some c →
        baseline5kSecOf baseline = some s →
        (c.timeSec < (s : ℚ) →
          best5kValueOf baseline activities = formatTimeMinTextFromSec c.timeSec)
        ∧ (¬ c.timeSec < (s : ℚ) →
          best5kValueOf baseline activities =
            some (((baseline5kOf baseline).bind BaselinePRTime.timeText).getD "")))
    ∧ ((findBestForDistance (runsOf activities) 5 (2 / 25) = none
        ∨ baseline5kSecOf baseline = none) →
        best5kValueOf baseline activities =
          some (((baseline5kOf baseline).bind BaselinePRTime.timeText).getD ""))
    ∧ (∀ c, findBestForDistance (runsOf activities) 10 (3 / 25) = some c →
        c.a ∈ runsOf activities ∧ isCand 10 (3 / 25) c.a
        ∧ c.timeSec = qOf c.a.moving_time_s
        ∧ ∀ a ∈ runsOf activities, isCand 10 (3 / 25) a → c.timeSec ≤ qOf a.moving_time_s)
    ∧ (findBestForDistance (runsOf activities) 10 (3 / 25) = none →
        ∀ a ∈ runsOf activities, ¬ isCand 10 (3 / 25) a)
    ∧ (∀ c s, findBestForDistance (runsOf activities) 10 (3 / 25) = some c →
        baseline10kSecOf baseline = some s →
        (c.timeSec < (s : ℚ) →
          best10kValueOf baseline activities = formatTimeMinTextFromSec c.timeSec)
        ∧ (¬ c.timeSec < (s : ℚ) →
          best10kValueOf baseline activities =
            some (((baseline10kOf baseline).bind BaselinePRTime.timeText).getD "")))
    ∧ ((findBestForDistance (runsOf activities) 10 (3 / 25) = none
        ∨ baseline10kSecOf baseline = none) →
        best10kValueOf baseline activities =
          some (((baseline10kOf baseline).bind BaselinePRTime.timeText).getD "")) :=
  ⟨fun c hc => findBest_some_char _ 5 (2 / 25) c hc,
   fun h => findBest_none_char _ 5 (2 / 25) h,
   fun c s hc hs => bestValue5k_replace baseline activities c s hc hs,
   fun h => bestValue5k_keep baseline activities h,
   fun c hc => findBest_some_char _ 10 (3 / 25) c hc,
   fun h => findBest_none_char _ 10 (3 / 25) h,
   fun c s hc hs => bestValue10k_replace baseline activities c s hc hs,
   fun h => bestValue10k_keep baseline activities h⟩

/-- Running record within 5K tolerance whose moving time is 0 (e.g. an
absent moving time coerced to 0). -/
def c8A : ActivityRecord :=
  { blankRec with
    id := "1"
    sport_type := some "Run"
    distance_m := some 5000
    moving_time_s := some 0 }

/-- Running record within 5K tolerance with moving time 1000 s. -/
def c8B : ActivityRecord :=
  { blankRec with
    id := "2"
    sport_type := some "Run"
    distance_m := some 5000
    moving_time_s := some 1000 }

/-- C8 counterexample: the claim's selection rule — minimum moving time
among all records within tolerance — fails on a record with moving time 0:
the engine skips non-positive moving times, so it selects the 1000 s record
although a within-tolerance record with smaller (zero) moving time exists. -/
theorem claim8_counterexample :
    ¬ (∀ c, findBestForDistance (runsOf [c8A, c8B]) 5 (2 / 25) = some c →
        ∀ a ∈ runsOf [c8A, c8B], |qOf a.distance_m / 1000 - 5| ≤ 2 / 25 →
          c.timeSec ≤ qOf a.moving_time_s) := by
  have hruns : runsOf [c8A, c8B] = [c8A, c8B] := by
    norm_num [runsOf, isRun, asSportType, c8A, c8B, blankRec]
  intro hcl
  have h := hcl ⟨c8B, 5, 1000, 200⟩
    (by rw [hruns]
        norm_num [findBestForDistance, qOf, bfdStep, clamp, c8A, c8B, blankRec,
          min_def, max_def])
    c8A (by rw [hruns]; exact List.mem_cons_self c8A [c8B])
    (by norm_num [qOf, c8A, blankRec])
  revert h
  norm_num [qOf, c8A, blankRec]

/-- Baseline with a 30:00 best 5K. -/
def c8bW : Baseline :=
  { running := some
      { totalDistanceKm := none, avgPaceText := none, sinceLabel := none,
        best := some
          { farthest := none,
            best5k := some { timeText := some "30:00", unit := none, paceText := none },
            best10k := none } } }

/-- Witness for C8: a 1000 s candidate beats the parsed 1800 s baseline, so
the card value is the formatted candidate time. -/
theorem claim8_witness :
    best5kValueOf c8bW [c8B] = formatTimeMinTextFromSec 1000 := by
  have hruns : runsOf [c8B] = [c8B] := by
    norm_num [runsOf, isRun, asSportType, c8B, blankRec]
  have h := ((claim8_best_time_rules c8bW [c8B]).2.2.1 ⟨c8B, 5, 1000, 200⟩ 1800
    (by rw [hruns]
        norm_num [findBestForDistance, qOf, bfdStep, clamp, c8B, blankRec,
          min_def, max_def])
    (by decide)).1 (by norm_num)
  exact h

/-! ### Claim theorems: fatal errors, exit status and persistence -/

theorem runMain_eq_fatal (env : Env) (e : String) (h : fatalReason env = some e) :
    runMain env = Except.error e := by
  unfold fatalReason at h
  unfold runMain
  cases h1 : stravaRefreshAccessToken env with
  | error e1 =>
    simp only [h1] at h ⊢
    cases h
    rfl
  | ok ta =>
    simp only [h1] at h ⊢
    cases h2 : fetchAthleteStats env ta.2 with
    | error e2 =>
      simp only [h2] at h ⊢
      cases h
      rfl
    | ok st =>
      simp only [h2] at h ⊢
      cases h3 : fetchActivities env (afterEpochOf env) with
      | error e3 =>
        simp only [h3] at h ⊢
        cases h
        rfl
      | ok fresh =>
        simp only [h3] at h
        cases h

theorem runMain_ok_of_no_fatal (env : Env) (h : fatalReason env = none) :
    ∃ r, runMain env = Except.ok r := by
  unfold fatalReason at h
  unfold runMain
  cases h1 : stravaRefreshAccessToken env with
  | error e1 =>
    simp only [h1] at h
    cases h
  | ok ta =>
    simp only [h1] at h ⊢
    cases h2 : fetchAthleteStats env ta.2 with
    | error e2 =>
      simp only [h2] at h
      cases h
    | ok st =>
      simp only [h2] at h ⊢
      cases h3 : fetchActivities env (afterEpochOf env) with
      | error e3 =>
        simp only [h3] at h
        cases h
      | ok fresh =>
        simp only [h3]
        exact ⟨_, rfl⟩

/-- C9: a failure of the credential exchange, the lifetime-totals fetch, or
the activity-list fetch (any page's HTTP failure or a non-sequence body —
both folded into `fetchActivities`' error) aborts the run with exit status
1, the error on the error stream, and none of the three persisted outputs
written; with all three steps succeeding the run exits 0 and writes exactly
the merged cache, the sync state and the stats document (detail-lookup
failures and a missing athlete id never abort). -/
theorem claim9_fatal_behavior (env : Env) :
    (∀ e, fatalReason env = some e →
      exitCodeOf env = 1 ∧ stderrOf env = some e ∧ writeOpsOf env = [])
    ∧ (fatalReason env = none →
      exitCodeOf env = 0 ∧ stderrOf env = none
      ∧ ∃ r, runMain env = Except.ok r
        ∧ writeOpsOf env = [WriteOp.activities r.cacheOut, WriteOp.syncState r.stateOut,
            WriteOp.stats r.statsOut]) := by
  constructor
  · intro e he
    have hm := runMain_eq_fatal env e he
    unfold exitCodeOf stderrOf writeOpsOf
    rw [hm]
    exact ⟨rfl, rfl, rfl⟩
  · intro he
    rcases runMain_ok_of_no_fatal env he with ⟨r, hm⟩
    unfold exitCodeOf stderrOf writeOpsOf
    rw [hm]
    exact ⟨rfl, rfl, r, rfl, rfl⟩

/-- Environment whose credential exchange is refused. -/
def envBadTok : Env := { envC3 with tokenResp := Except.error "denied" }

/-- Witness for C9: a concrete fatal run and a concrete successful run. -/
theorem claim9_witness :
    (exitCodeOf envBadTok = 1 ∧ stderrOf envBadTok = some "denied"
      ∧ writeOpsOf envBadTok = [])
    ∧ (exitCodeOf envC3 = 0 ∧ stderrOf envC3 = none
      ∧ ∃ r, runMain envC3 = Except.ok r
        ∧ writeOpsOf envC3 = [WriteOp.activities r.cacheOut, WriteOp.syncState r.stateOut,
            WriteOp.stats r.statsOut]) :=
  ⟨(claim9_fatal_behavior envBadTok).1 "denied" rfl,
   (claim9_fatal_behavior envC3).2 rfl⟩

/-! ### Claim theorems: absent athlete id and local fallback -/

/-- C10: when the credential exchange succeeds but yields a falsy athlete
id, the lifetime-totals lookup is skipped (its result is `none` for every
stats endpoint, with no error raised), and with absent lifetime totals
every running/cycling total falls back to the local branch: baseline plus
locally summed running records, and locally summed cycling records. -/
theorem claim10_athlete_fallback (env : Env) (tok : String) (aid : Option Int)
    (htok : stravaRefreshAccessToken env = Except.ok (tok, aid))
    (hf : aid = none ∨ aid = some 0) :
    (∀ f, fetchAthleteStats { env with statsResp := f } aid = Except.ok none)
    ∧ (∀ b acts,
        runDistanceKmOf b acts none =
          baselineRunningDistKm b + sumBy (runsOf acts) ActivityRecord.distance_m / 1000
        ∧ runTimeHOf b acts none =
          baselineTimeHOf b + sumBy (runsOf acts) ActivityRecord.moving_time_s / 3600
        ∧ rideDistanceKmOf acts none = sumBy (ridesOf acts) ActivityRecord.distance_m / 1000
        ∧ rideTimeHOf acts none = sumBy (ridesOf acts) ActivityRecord.moving_time_s / 3600
        ∧ rideCountOf acts none = ((ridesOf acts).length : ℚ)) := by
  constructor
  · intro f
    rcases hf with rfl | rfl
    · rfl
    · simp [fetchAthleteStats]
  · intro b acts
    exact ⟨rfl, rfl, rfl, rfl, rfl⟩

/-- Witness for C10: the concrete environment's token carries no athlete
id; the totals reduce to the local branch on a concrete input. -/
theorem claim10_witness :
    fetchAthleteStats { envC3 with statsResp := fun _ => Except.error "x" } none =
      Except.ok none
    ∧ runDistanceKmOf c1Baseline [c1Rec] none =
        baselineRunningDistKm c1Baseline
          + sumBy (runsOf [c1Rec]) ActivityRecord.distance_m / 1000 :=
  ⟨(claim10_athlete_fallback envC3 "t" none rfl (Or.inl rfl)).1 (fun _ => Except.error "x"),
   ((claim10_athlete_fallback envC3 "t" none rfl (Or.inl rfl)).2 c1Baseline [c1Rec]).1⟩
